import Mathlib

/-!
Verification development for the AWS Bedrock Knowledge Base connector
(`aws_bedrock_kb_function.py`).  The Python source is shallowly embedded:
pure helpers become Lean functions over `String`/`List Char`/`PyVal`
(a model of Python JSON-shaped values); the effectful orchestrator is
embedded as a function of an `Oracle` record supplying the outcomes of
the external calls (AWS client construction, Bedrock model invocations,
knowledge-base retrieval, `json.loads` on model output), each outcome an
`Except Err _` where `.error` stands for a raised Python exception.
-/

set_option maxHeartbeats 1000000
set_option linter.unusedVariables false

namespace BedrockKB

/-- Model of a Python JSON-shaped value (the values produced by
`json.loads` and stored in result metadata). -/
inductive PyVal where
  | none : PyVal
  | bool : Bool → PyVal
  | int : Int → PyVal
  | str : String → PyVal
  | list : List PyVal → PyVal
  | dict : List (String × PyVal) → PyVal

mutual

/-- Structural equality test on `PyVal` (Python `==` on JSON-shaped values). -/
def PyVal.beq : PyVal → PyVal → Bool
  | .none, .none => true
  | .bool a, .bool b => a = b
  | .int a, .int b => a = b
  | .str a, .str b => a = b
  | .list xs, .list ys => PyVal.beqList xs ys
  | .dict xs, .dict ys => PyVal.beqKVs xs ys
  | _, _ => false

def PyVal.beqList : List PyVal → List PyVal → Bool
  | [], [] => true
  | x :: xs, y :: ys => PyVal.beq x y && PyVal.beqList xs ys
  | _, _ => false

def PyVal.beqKVs : List (String × PyVal) → List (String × PyVal) → Bool
  | [], [] => true
  | (k, v) :: xs, (k', v') :: ys => k = k' && PyVal.beq v v' && PyVal.beqKVs xs ys
  | _, _ => false

end

mutual

theorem PyVal.beq_iff : ∀ a b : PyVal, PyVal.beq a b = true ↔ a = b
  | .none, b => by cases b <;> simp [PyVal.beq]
  | .bool a, b => by cases b <;> simp [PyVal.beq]
  | .int a, b => by cases b <;> simp [PyVal.beq]
  | .str a, b => by cases b <;> simp [PyVal.beq]
  | .list xs, b => by
      cases b <;> simp [PyVal.beq]
      exact PyVal.beqList_iff xs _
  | .dict xs, b => by
      cases b <;> simp [PyVal.beq]
      exact PyVal.beqKVs_iff xs _

theorem PyVal.beqList_iff : ∀ xs ys : List PyVal, PyVal.beqList xs ys = true ↔ xs = ys
  | [], ys => by cases ys <;> simp [PyVal.beqList]
  | x :: xs, ys => by
      cases ys with
      | nil => simp [PyVal.beqList]
      | cons y ys =>
          simp only [PyVal.beqList, Bool.and_eq_true, List.cons.injEq]
          exact and_congr (PyVal.beq_iff x y) (PyVal.beqList_iff xs ys)

theorem PyVal.beqKVs_iff :
    ∀ xs ys : List (String × PyVal), PyVal.beqKVs xs ys = true ↔ xs = ys
  | [], ys => by cases ys <;> simp [PyVal.beqKVs]
  | (k, v) :: xs, ys => by
      cases ys with
      | nil => simp [PyVal.beqKVs]
      | cons y ys =>
          obtain ⟨k', v'⟩ := y
          simp only [PyVal.beqKVs, Bool.and_eq_true, List.cons.injEq, Prod.mk.injEq,
            decide_eq_true_eq]
          rw [PyVal.beq_iff v v', PyVal.beqKVs_iff xs ys, and_assoc]

end

instance : DecidableEq PyVal := fun a b => decidable_of_iff _ (PyVal.beq_iff a b)

/-- Python truthiness (`if not x`) on `PyVal`: `None`, `False`, `0`,
`""`, `[]` and `{}` are falsy. -/
def pyFalsy : PyVal → Bool
  | .none => true
  | .bool b => !b
  | .int n => n = 0
  | .str s => s = ""
  | .list xs => xs.isEmpty
  | .dict kvs => kvs.isEmpty

/-- First-match association-list lookup, modelling Python `dict`
subscripting / `'k' in d` (dict keys are unique in Python, so
first-match agrees). -/
def alookup (k : String) : List (String × α) → Option α
  | [] => Option.none
  | (k', v) :: rest => if k' = k then Option.some v else alookup k rest

/-! ### String helpers (Python `str` semantics) -/

/-- Python whitespace (`str.isspace`, `str.strip()`, regex `\s` on `str`
patterns): ASCII whitespace, the four information separators, NEL, NBSP,
and the Unicode space separators. -/
def isPySpace (c : Char) : Bool :=
  let n := c.toNat
  (n == 0x20) || (n == 0x9) || (n == 0xA) || (n == 0xD) || (n == 0xB) || (n == 0xC) ||
  (0x1C ≤ n && n ≤ 0x1F) || (n == 0x85) || (n == 0xA0) || (n == 0x1680) ||
  (0x2000 ≤ n && n ≤ 0x200A) || (n == 0x2028) || (n == 0x2029) || (n == 0x202F) ||
  (n == 0x205F) || (n == 0x3000)

/-- Python `str.strip()` on a character list. -/
def pyStripL (cs : List Char) : List Char :=
  ((cs.dropWhile isPySpace).reverse.dropWhile isPySpace).reverse

/-- Python `str.strip()`. -/
def pyStrip (s : String) : String := (pyStripL s.data).asString

/-- Python `str.lower()` (ASCII range; the source only lowercases ASCII
model identifiers). -/
def lowerStr (s : String) : String := (s.data.map Char.toLower).asString

/-- Python `needle in hay` substring test. -/
def containsSubL (hay needle : List Char) : Bool :=
  if needle.isPrefixOf hay then true
  else
    match hay with
    | [] => false
    | _ :: t => containsSubL t needle

/-- Python `needle in hay` on strings. -/
def containsSub (hay needle : String) : Bool := containsSubL hay.data needle.data

mutual

/-- Python `str.split()` (no argument): split on runs of whitespace,
discarding empty pieces. -/
def splitWsL : List Char → List String
  | [] => []
  | c :: cs => if isPySpace c then splitWsL cs else splitWsTok [c] cs

/-- Scanning state of `splitWsL`: `acc` holds the current token reversed. -/
def splitWsTok (acc : List Char) : List Char → List String
  | [] => [acc.reverse.asString]
  | c :: cs =>
    if isPySpace c then acc.reverse.asString :: splitWsL cs
    else splitWsTok (c :: acc) cs

end

/-! ### Digits and zero-padded decimal rendering -/

def isDigitC (c : Char) : Bool := (48 ≤ c.toNat) && (c.toNat ≤ 57)

/-- Numeric value of a decimal digit character. -/
def dval (c : Char) : Nat := c.toNat - 48

/-- The decimal digit character for `n % 10`. -/
def digitChar10 (n : Nat) : Char := Char.ofNat (48 + n % 10)

/-- Two-digit zero-padded rendering (`%m`, `%d`, `%H`, `%M`, `%S`). -/
def pad2 (n : Nat) : List Char := [digitChar10 (n / 10), digitChar10 n]

/-- Four-digit rendering; equals the year rendering for years ≥ 1000. -/
def pad4 (n : Nat) : List Char :=
  [digitChar10 (n / 1000), digitChar10 (n / 100), digitChar10 (n / 10), digitChar10 n]

/-- Structural worker for `natDecChars` (`fuel` bounds the digit count;
`n + 1` always suffices). -/
def natDecCharsAux : Nat → Nat → List Char
  | 0, _ => []
  | fuel + 1, n =>
    if n < 10 then [digitChar10 n] else natDecCharsAux fuel (n / 10) ++ [digitChar10 n]

/-- Unpadded decimal digits of `n` (glibc `strftime %Y`, which the
source's Linux deployment delegates to, does not zero-pad years below
1000; for years ≥ 1000 this is the usual four-digit rendering). -/
def natDecChars (n : Nat) : List Char := natDecCharsAux (n + 1) n

/-! ### `datetime.strptime` component parsers

Each parser mirrors the regular expression CPython's `_strptime` builds
for the corresponding directive (`%Y` = exactly four digits, `%m` =
`1[0-2]|0[1-9]|[1-9]`, `%d` = `3[01]|[12]\d|0[1-9]|[1-9]`, `%H` =
`2[0-3]|[0-1]\d|\d`, `%M`/`%S` = `[0-5]\d|\d`, `%f` = one to six digits,
literal letters matched case-insensitively, whitespace in the format
matching a run of whitespace).  The parsers commit to the first matching
alternative; this agrees with the regex backtracking semantics for the
nine formats used by the source because every directive here is followed
by a non-digit literal (or end of input), so a longer numeric
alternative never steals a character the continuation could accept. -/

def parseY4 : List Char → Option (Nat × List Char)
  | c1 :: c2 :: c3 :: c4 :: rest =>
    if isDigitC c1 && isDigitC c2 && isDigitC c3 && isDigitC c4 then
      Option.some (((dval c1 * 10 + dval c2) * 10 + dval c3) * 10 + dval c4, rest)
    else Option.none
  | _ => Option.none

def parseMonthNum : List Char → Option (Nat × List Char)
  | c1 :: c2 :: rest =>
    if c1 = '1' && isDigitC c2 && dval c2 ≤ 2 then Option.some (10 + dval c2, rest)
    else if c1 = '0' && isDigitC c2 && 1 ≤ dval c2 then Option.some (dval c2, rest)
    else if isDigitC c1 && 1 ≤ dval c1 then Option.some (dval c1, c2 :: rest)
    else Option.none
  | [c1] => if isDigitC c1 && 1 ≤ dval c1 then Option.some (dval c1, []) else Option.none
  | [] => Option.none

def parseDayNum : List Char → Option (Nat × List Char)
  | c1 :: c2 :: rest =>
    if c1 = '3' && (c2 = '0' || c2 = '1') then Option.some (30 + dval c2, rest)
    else if (c1 = '1' || c1 = '2') && isDigitC c2 then
      Option.some (dval c1 * 10 + dval c2, rest)
    else if c1 = '0' && isDigitC c2 && 1 ≤ dval c2 then Option.some (dval c2, rest)
    else if isDigitC c1 && 1 ≤ dval c1 then Option.some (dval c1, c2 :: rest)
    else Option.none
  | [c1] => if isDigitC c1 && 1 ≤ dval c1 then Option.some (dval c1, []) else Option.none
  | [] => Option.none

def parseHourNum : List Char → Option (Nat × List Char)
  | c1 :: c2 :: rest =>
    if c1 = '2' && isDigitC c2 && dval c2 ≤ 3 then Option.some (20 + dval c2, rest)
    else if (c1 = '0' || c1 = '1') && isDigitC c2 then
      Option.some (dval c1 * 10 + dval c2, rest)
    else if isDigitC c1 then Option.some (dval c1, c2 :: rest)
    else Option.none
  | [c1] => if isDigitC c1 then Option.some (dval c1, []) else Option.none
  | [] => Option.none

/-- Minutes and seconds: `[0-5]\d|\d`. -/
def parseMSNum : List Char → Option (Nat × List Char)
  | c1 :: c2 :: rest =>
    if isDigitC c1 && dval c1 ≤ 5 && isDigitC c2 then
      Option.some (dval c1 * 10 + dval c2, rest)
    else if isDigitC c1 then Option.some (dval c1, c2 :: rest)
    else Option.none
  | [c1] => if isDigitC c1 then Option.some (dval c1, []) else Option.none
  | [] => Option.none

/-- Literal character in a `strptime` format (exact match). -/
def litc (a : Char) : List Char → Option (List Char)
  | c :: rest => if c = a then Option.some rest else Option.none
  | [] => Option.none

/-- Literal letter in a `strptime` format (`IGNORECASE`, ASCII). -/
def litCI (a : Char) : List Char → Option (List Char)
  | c :: rest => if c.toLower = a.toLower then Option.some rest else Option.none
  | [] => Option.none

/-- Whitespace in a `strptime` format matches a nonempty whitespace run. -/
def wsPlus : List Char → Option (List Char)
  | c :: cs => if isPySpace c then Option.some (cs.dropWhile isPySpace) else Option.none
  | [] => Option.none

/-- Case-insensitive (ASCII) literal word match, returning the rest. -/
def ciPrefixM : List Char → List Char → Option (List Char)
  | [], cs => Option.some cs
  | p :: ps, c :: cs => if c.toLower = p.toLower then ciPrefixM ps cs else Option.none
  | _ :: _, [] => Option.none

/-- Month-name alternation (`%B`/`%b`), first match as in `_strptime`. -/
def parseMonthName : List (String × Nat) → List Char → Option (Nat × List Char)
  | [], _ => Option.none
  | (nm, v) :: rest, cs =>
    match ciPrefixM nm.data cs with
    | Option.some r => Option.some (v, r)
    | Option.none => parseMonthName rest cs

def monthNamesFull : List (String × Nat) :=
  [("september", 9), ("february", 2), ("november", 11), ("december", 12),
   ("january", 1), ("october", 10), ("august", 8), ("march", 3), ("april", 4),
   ("june", 6), ("july", 7), ("may", 5)]

def monthNamesAbbr : List (String × Nat) :=
  [("jan", 1), ("feb", 2), ("mar", 3), ("apr", 4), ("may", 5), ("jun", 6),
   ("jul", 7), ("aug", 8), ("sep", 9), ("oct", 10), ("nov", 11), ("dec", 12)]

/-- Up to `n` leading decimal digits. -/
def takeDigits : Nat → List Char → List Char × List Char
  | 0, cs => ([], cs)
  | _ + 1, [] => ([], [])
  | n + 1, c :: cs =>
    if isDigitC c then
      let (ds, r) := takeDigits n cs
      (c :: ds, r)
    else ([], c :: cs)

def digitsVal (ds : List Char) : Nat := ds.foldl (fun a c => a * 10 + dval c) 0

/-- `%f`: one to six digits, right-padded to microseconds. -/
def parseFrac (cs : List Char) : Option (Nat × List Char) :=
  let (ds, r) := takeDigits 6 cs
  if ds.isEmpty then Option.none
  else Option.some (digitsVal ds * 10 ^ (6 - ds.length), r)

/-- `%z`: CPython matches `[+-]\d\d:?[0-5]\d(:?[0-5]\d(\.\d{1,6})?)?|Z`
(`Z` uppercase only) and then rejects a mixed colon/no-colon seconds
part (`ValueError`, either from the explicit check or from `int(':d')`).
Returns the UTC offset in microseconds and the remaining input. -/
def parseZOff (cs : List Char) : Option (Int × List Char) :=
  match cs with
  | 'Z' :: rest => Option.some (0, rest)
  | sgn :: h1 :: h2 :: r1 =>
    if (sgn = '+' || sgn = '-') && isDigitC h1 && isDigitC h2 then
      let hh := dval h1 * 10 + dval h2
      let (colon1, r2) := match r1 with
        | ':' :: r => (true, r)
        | r => (false, r)
      match r2 with
      | m1 :: m2 :: r3 =>
        if isDigitC m1 && dval m1 ≤ 5 && isDigitC m2 then
          let mm := dval m1 * 10 + dval m2
          let secPart : Option (Bool × Nat × Nat × List Char) := match r3 with
            | ':' :: s1 :: s2 :: r4 =>
              if isDigitC s1 && dval s1 ≤ 5 && isDigitC s2 then
                let ss := dval s1 * 10 + dval s2
                match r4 with
                | '.' :: r5 =>
                  match parseFrac r5 with
                  | Option.some (fr, r6) => Option.some (true, ss, fr, r6)
                  | Option.none => Option.some (true, ss, 0, r4)
                | _ => Option.some (true, ss, 0, r4)
              else Option.none
            | s1 :: s2 :: r4 =>
              if isDigitC s1 && dval s1 ≤ 5 && isDigitC s2 then
                let ss := dval s1 * 10 + dval s2
                match r4 with
                | '.' :: r5 =>
                  match parseFrac r5 with
                  | Option.some (fr, r6) => Option.some (false, ss, fr, r6)
                  | Option.none => Option.some (false, ss, 0, r4)
                | _ => Option.some (false, ss, 0, r4)
              else Option.none
            | _ => Option.none
          match secPart with
          | Option.some (colon2, ss, fr, r4) =>
            if colon1 = colon2 then
              let mag : Int := ((hh * 3600 + mm * 60 + ss) * 1000000 + fr : Nat)
              Option.some (if sgn = '-' then -mag else mag, r4)
            else Option.none
          | Option.none =>
            let mag : Int := ((hh * 3600 + mm * 60) * 1000000 : Nat)
            Option.some (if sgn = '-' then -mag else mag, r3)
        else Option.none
      | _ => Option.none
    else Option.none
  | _ => Option.none

/-- The components of a parsed `datetime`: clock fields, microseconds
(`%f`), and the explicit UTC offset in microseconds when the format
carried `%z` (`Option.none` = naive, assumed UTC by the source). -/
structure DT where
  y : Nat
  m : Nat
  d : Nat
  hh : Nat
  mi : Nat
  ss : Nat
  micro : Nat
  off : Option Int
deriving DecidableEq

def isLeap (y : Nat) : Bool := y % 4 == 0 && (y % 100 != 0 || y % 400 == 0)

def daysInMonth (y m : Nat) : Nat :=
  if m = 2 then (if isLeap y then 29 else 28)
  else if m = 4 || m = 6 || m = 9 || m = 11 then 30
  else 31

/-- `datetime(...)` construction validity: the regexes already bound
month, hour, minute and second; the constructor additionally requires
`MINYEAR <= year` and a day that exists in the month. -/
def validYMD (y m d : Nat) : Bool := 1 ≤ y && d ≤ daysInMonth y m

def mkDT (y m d hh mi ss micro : Nat) (off : Option Int) : Option DT :=
  if validYMD y m d then Option.some ⟨y, m, d, hh, mi, ss, micro, off⟩ else Option.none

/-! ### The nine `strptime` formats tried by `parse_datetime_to_formats` -/

/-- `%Y-%m-%dT%H:%M:%SZ` (`T`/`Z` are literals, matched case-insensitively). -/
def parseFmt1 (cs : List Char) : Option DT := do
  let (y, r) ← parseY4 cs
  let r ← litc '-' r
  let (m, r) ← parseMonthNum r
  let r ← litc '-' r
  let (d, r) ← parseDayNum r
  let r ← litCI 'T' r
  let (hh, r) ← parseHourNum r
  let r ← litc ':' r
  let (mi, r) ← parseMSNum r
  let r ← litc ':' r
  let (ss, r) ← parseMSNum r
  let r ← litCI 'Z' r
  if r.isEmpty then mkDT y m d hh mi ss 0 Option.none else Option.none

/-- `%Y-%m-%dT%H:%M:%S.%fZ`. -/
def parseFmt2 (cs : List Char) : Option DT := do
  let (y, r) ← parseY4 cs
  let r ← litc '-' r
  let (m, r) ← parseMonthNum r
  let r ← litc '-' r
  let (d, r) ← parseDayNum r
  let r ← litCI 'T' r
  let (hh, r) ← parseHourNum r
  let r ← litc ':' r
  let (mi, r) ← parseMSNum r
  let r ← litc ':' r
  let (ss, r) ← parseMSNum r
  let r ← litc '.' r
  let (micro, r) ← parseFrac r
  let r ← litCI 'Z' r
  if r.isEmpty then mkDT y m d hh mi ss micro Option.none else Option.none

/-- `%Y-%m-%d %H:%M:%S` (the format's space matches a whitespace run). -/
def parseFmt3 (cs : List Char) : Option DT := do
  let (y, r) ← parseY4 cs
  let r ← litc '-' r
  let (m, r) ← parseMonthNum r
  let r ← litc '-' r
  let (d, r) ← parseDayNum r
  let r ← wsPlus r
  let (hh, r) ← parseHourNum r
  let r ← litc ':' r
  let (mi, r) ← parseMSNum r
  let r ← litc ':' r
  let (ss, r) ← parseMSNum r
  if r.isEmpty then mkDT y m d hh mi ss 0 Option.none else Option.none

/-- `%Y-%m-%d`. -/
def parseFmt4 (cs : List Char) : Option DT := do
  let (y, r) ← parseY4 cs
  let r ← litc '-' r
  let (m, r) ← parseMonthNum r
  let r ← litc '-' r
  let (d, r) ← parseDayNum r
  if r.isEmpty then mkDT y m d 0 0 0 0 Option.none else Option.none

/-- `%d/%m/%Y`. -/
def parseFmt5 (cs : List Char) : Option DT := do
  let (d, r) ← parseDayNum cs
  let r ← litc '/' r
  let (m, r) ← parseMonthNum r
  let r ← litc '/' r
  let (y, r) ← parseY4 r
  if r.isEmpty then mkDT y m d 0 0 0 0 Option.none else Option.none

/-- `%m/%d/%Y`. -/
def parseFmt6 (cs : List Char) : Option DT := do
  let (m, r) ← parseMonthNum cs
  let r ← litc '/' r
  let (d, r) ← parseDayNum r
  let r ← litc '/' r
  let (y, r) ← parseY4 r
  if r.isEmpty then mkDT y m d 0 0 0 0 Option.none else Option.none

/-- `%B %d, %Y` (full month name). -/
def parseFmt7 (cs : List Char) : Option DT := do
  let (m, r) ← parseMonthName monthNamesFull cs
  let r ← wsPlus r
  let (d, r) ← parseDayNum r
  let r ← litc ',' r
  let r ← wsPlus r
  let (y, r) ← parseY4 r
  if r.isEmpty then mkDT y m d 0 0 0 0 Option.none else Option.none

/-- `%b %d, %Y` (abbreviated month name). -/
def parseFmt8 (cs : List Char) : Option DT := do
  let (m, r) ← parseMonthName monthNamesAbbr cs
  let r ← wsPlus r
  let (d, r) ← parseDayNum r
  let r ← litc ',' r
  let r ← wsPlus r
  let (y, r) ← parseY4 r
  if r.isEmpty then mkDT y m d 0 0 0 0 Option.none else Option.none

/-- `%Y-%m-%dT%H:%M:%S%z`.  `timezone(timedelta(...))` additionally
requires the offset to lie strictly between -24h and +24h. -/
def parseFmt9 (cs : List Char) : Option DT := do
  let (y, r) ← parseY4 cs
  let r ← litc '-' r
  let (m, r) ← parseMonthNum r
  let r ← litc '-' r
  let (d, r) ← parseDayNum r
  let r ← litCI 'T' r
  let (hh, r) ← parseHourNum r
  let r ← litc ':' r
  let (mi, r) ← parseMSNum r
  let r ← litc ':' r
  let (ss, r) ← parseMSNum r
  let (off, r) ← parseZOff r
  if r.isEmpty && off.natAbs < 86400000000 then
    mkDT y m d hh mi ss 0 (Option.some off)
  else Option.none

/-- The format cascade of `parse_datetime_to_formats`, tried in source
order until one succeeds. -/
def parseCascade (cs : List Char) : Option DT :=
  (parseFmt1 cs).orElse fun _ =>
  (parseFmt2 cs).orElse fun _ =>
  (parseFmt3 cs).orElse fun _ =>
  (parseFmt4 cs).orElse fun _ =>
  (parseFmt5 cs).orElse fun _ =>
  (parseFmt6 cs).orElse fun _ =>
  (parseFmt7 cs).orElse fun _ =>
  (parseFmt8 cs).orElse fun _ =>
  parseFmt9 cs

/-! ### Epoch arithmetic and ISO rendering -/

/-- Days from 1970-01-01 to the given civil date (Howard Hinnant's
`days_from_civil`, the arithmetic `datetime.timestamp` realises). -/
def daysFromCivil (y m d : Nat) : Int :=
  let y' := if m ≤ 2 then y - 1 else y
  let era := y' / 400
  let yoe := y' % 400
  let mp := if m ≤ 2 then m + 9 else m - 3
  let doy := (153 * mp + 2) / 5 + (d - 1)
  let doe := yoe * 365 + yoe / 4 - yoe / 100 + doy
  (era * 146097 + doe : Nat) - (719468 : Int)

/-- Unix seconds of the clock fields read as a UTC instant (the instant
a `YYYY-MM-DDTHH:MM:SSZ` rendering of the fields denotes). -/
def fieldsEpochSecs (t : DT) : Int :=
  daysFromCivil t.y t.m t.d * 86400 + (t.hh * 3600 + t.mi * 60 + t.ss : Nat)

/-- `dt.timestamp()` in microseconds: the clock fields shifted by the
explicit offset when present (naive datetimes are first tagged UTC). -/
def timestampMicro (t : DT) : Int :=
  fieldsEpochSecs t * 1000000 + (t.micro : Int) - (t.off.getD 0)

/-- `int(dt.timestamp())`: truncation toward zero.  (Binary-float
rounding of `timestamp()` at extreme magnitudes is not modelled.) -/
def unixOf (t : DT) : Int := Int.tdiv (timestampMicro t) 1000000

/-- `dt.strftime('%Y-%m-%dT%H:%M:%SZ')`: the *clock fields* rendered
with a literal `Z`, regardless of `tzinfo`. -/
def isoString (t : DT) : String :=
  (natDecChars t.y ++ '-' :: pad2 t.m ++ '-' :: pad2 t.d ++ 'T' :: pad2 t.hh ++
    ':' :: pad2 t.mi ++ ':' :: pad2 t.ss ++ ['Z']).asString

/-- `parse_datetime_to_formats` (lines 44-95): try the format cascade;
on success return the ISO rendering and the truncated Unix timestamp. -/
def parse_datetime_to_formats (s : String) : Option (String × Int) :=
  (parseCascade s.data).map fun t => (isoString t, unixOf t)

/-! ### The `from ... to ...` range regex -/

/-- Try `f (n+1), f n, ..., f 1`, first success (greedy `\s+`). -/
def tryDesc (f : Nat → Option α) : Nat → Option α
  | 0 => Option.none
  | n + 1 => (f (n + 1)).orElse fun _ => tryDesc f n

/-- Try `f i, f (i+1), ...` for `fuel` steps, first success (lazy `.+?`). -/
def tryAscAux (f : Nat → Option α) : Nat → Nat → Option α
  | _, 0 => Option.none
  | i, fuel + 1 => (f i).orElse fun _ => tryAscAux f (i + 1) fuel

/-- Greedy `\s+` with backtracking: consume `j` whitespace characters,
longest first, at least one. -/
def sPlusGreedy (cs : List Char) (k : List Char → Option α) : Option α :=
  tryDesc (fun j => k (cs.drop j)) (cs.takeWhile isPySpace).length

/-- Maximal run of non-newline characters (regex `.` never matches `\n`). -/
def nonNlRun (cs : List Char) : List Char := cs.takeWhile (fun c => c ≠ '\n')

/-- `re.match(r'from\s+(.+?)\s+to\s+(.+)', input, re.IGNORECASE)` with
full backtracking semantics: the anchored prefix `from`, a greedy
whitespace run, the lazy first group, `to` between whitespace runs, and
the greedy second group (which, with nothing after it, is the maximal
non-newline run).  Returns the two capture groups. -/
def matchFromTo (cs : List Char) : Option (List Char × List Char) :=
  match ciPrefixM (("from").data) cs with
  | Option.none => Option.none
  | Option.some r0 =>
    sPlusGreedy r0 fun r1 =>
      tryAscAux (fun n =>
        if n ≤ r1.length && (r1.take n).all (fun c => c ≠ '\n') then
          sPlusGreedy (r1.drop n) fun r2 =>
            match ciPrefixM (("to").data) r2 with
            | Option.none => Option.none
            | Option.some r3 =>
              sPlusGreedy r3 fun r4 =>
                let g2 := nonNlRun r4
                if g2.isEmpty then Option.none else Option.some (r1.take n, g2)
        else Option.none) 1 r1.length

/-- `parse_datetime_range` (lines 97-130): strip the input, match the
`from ... to ...` pattern, strip each side and run it through the format
cascade; any failure yields the all-`None` result (`Option.none` here).
The source returns a 4-tuple that is all-`None` or all-populated, so an
`Option` of the populated tuple is the faithful shape.  (The `except`
clause also absorbs an `AttributeError` when a non-string reaches this
function; callers below only pass strings, matching this signature.) -/
def parse_datetime_range (s : String) : Option (String × Int × String × Int) :=
  match matchFromTo (pyStripL s.data) with
  | Option.none => Option.none
  | Option.some (g1, g2) =>
    match parse_datetime_to_formats (pyStripL g1).asString,
          parse_datetime_to_formats (pyStripL g2).asString with
    | Option.some (si, su), Option.some (ei, eu) => Option.some (si, su, ei, eu)
    | _, _ => Option.none

/-! ### `_remove_markdown_code_blocks` and `_extract_filter_keys` -/

/-- `text.split('```')` on character lists: split at each
non-overlapping, leftmost occurrence of a triple-backtick fence
(`acc` holds the current piece reversed). -/
def splitFenceAux : List Char → List Char → List (List Char)
  | '`' :: '`' :: '`' :: rest, acc => acc.reverse :: splitFenceAux rest []
  | c :: rest, acc => splitFenceAux rest (c :: acc)
  | [], acc => [acc.reverse]

/-- `_remove_markdown_code_blocks` (lines 132-150): strip the text; if
it starts with a code fence, take the first fenced segment, drop a
leading `json` tag, and strip again. -/
def remove_markdown_code_blocks (text : String) : String :=
  let t := pyStripL text.data
  if (("```").data).isPrefixOf t then
    match (splitFenceAux t []).get? 1 with
    | Option.some t1 =>
      let t2 := if (("json").data).isPrefixOf t1 then t1.drop 4 else t1
      (pyStripL t2).asString
    | Option.none => t.asString
  else t.asString

/-- `keys.add(x)`: Python set insertion, modelled on a duplicate-free
list (insertion order is irrelevant to every property proved below). -/
def addKey (k : PyVal) (acc : List PyVal) : List PyVal :=
  if k ∈ acc then acc else acc ++ [k]

mutual

/-- The recursive worker of `_extract_filter_keys` (lines 167-178): a
dict contributes its `'key'` entry (whatever value it holds) and is
traversed through all its values; a list is traversed elementwise;
leaves contribute nothing.  The Python `set` is modelled as a
duplicate-free list extended by `addKey`. -/
def extractKeysVal : PyVal → List PyVal → List PyVal
  | .dict kvs, acc =>
    extractKeysKVs kvs
      (match alookup ("key") kvs with
       | Option.some kv => addKey kv acc
       | Option.none => acc)
  | .list xs, acc => extractKeysListAux xs acc
  | _, acc => acc

def extractKeysKVs : List (String × PyVal) → List PyVal → List PyVal
  | [], acc => acc
  | (_, v) :: rest, acc => extractKeysKVs rest (extractKeysVal v acc)

def extractKeysListAux : List PyVal → List PyVal → List PyVal
  | [], acc => acc
  | x :: rest, acc => extractKeysListAux rest (extractKeysVal x acc)

end

/-- `_extract_filter_keys` (lines 152-181): empty set for a falsy
filter, otherwise the set of all leaf `'key'` values. -/
def extract_filter_keys (mf : Option PyVal) : List PyVal :=
  match mf with
  | Option.none => []
  | Option.some v => if pyFalsy v then [] else extractKeysVal v []

mutual

/-- Modelled from the spec: the leaf `'key'` values of a filter tree in
traversal order, *with* duplicates — "every leaf `key` ... regardless of
how often it is duplicated in the tree, descending into all nested dict
values and list elements regardless of operator names".  Used as the
specification against which `extractKeysVal` is characterised. -/
def specLeafKeysVal : PyVal → List PyVal
  | .dict kvs =>
    (match alookup ("key") kvs with
     | Option.some kv => [kv]
     | Option.none => []) ++ specLeafKeysKVs kvs
  | .list xs => specLeafKeysList xs
  | _ => []

def specLeafKeysKVs : List (String × PyVal) → List PyVal
  | [] => []
  | (_, v) :: rest => specLeafKeysVal v ++ specLeafKeysKVs rest

def specLeafKeysList : List PyVal → List PyVal
  | [] => []
  | x :: rest => specLeafKeysVal x ++ specLeafKeysList rest

end

/-! ### Python `str()` rendering of metadata values -/

mutual

/-- `repr()` of a JSON-shaped value (containers quote their strings;
escaping inside strings is not reproduced — no claim depends on it). -/
def pyRepr : PyVal → String
  | .none => "None"
  | .bool b => if b then "True" else "False"
  | .int n => toString n
  | .str s => "\x27" ++ s ++ "\x27"
  | .list xs => "[" ++ pyReprList xs ++ "]"
  | .dict kvs => "\x7b" ++ pyReprKVs kvs ++ "\x7d"

def pyReprList : List PyVal → String
  | [] => ""
  | [x] => pyRepr x
  | x :: y :: rest => pyRepr x ++ ", " ++ pyReprList (y :: rest)

def pyReprKVs : List (String × PyVal) → String
  | [] => ""
  | [(k, v)] => "\x27" ++ k ++ "\x27: " ++ pyRepr v
  | (k, v) :: y :: rest => "\x27" ++ k ++ "\x27: " ++ pyRepr v ++ ", " ++ pyReprKVs (y :: rest)

end

/-- `str()` of a JSON-shaped value (as interpolated into an f-string). -/
def pyStr : PyVal → String
  | .str s => s
  | v => pyRepr v

/-! ### Configuration, externals, and exceptions -/

/-- A raised Python exception: whether it is a botocore `ClientError`
(caught separately by the source) and its `str(e)` rendering (modelled
up to the exact exception text, which no claim depends on). -/
structure Err where
  isClient : Bool
  msg : String
deriving DecidableEq

/-- The `Valves` configuration fields the embedded core reads.  The
credential/region/endpoint fields that only parameterise client
construction, and the numeric sampling parameters that flow only into
the external request bodies, are not consumed by the modelled logic
beyond what appears here.  `enable_citations` is the valve the tests
exercise (the citation feature itself is absent from `src/`; see
`generate_citations`). -/
structure Valves where
  aws_access_key_id : String
  aws_secret_access_key : String
  knowledge_base_id : String
  model_id : String
  number_of_results : Nat
  use_conversation_history : Bool
  max_history_messages : Nat
  enable_metadata_filtering : Bool
  metadata_definitions : String
  enable_citations : Bool
deriving DecidableEq

/-- One retrieval result: `result['content']['text']` when present, the
`result['metadata']` mapping when present, and `result['location']`
(`Option.some Option.none` = a location object without an s3 uri, which
the source renders as `Unknown`). -/
structure RetrievedResult where
  contentText : Option String
  metadata : Option (List (String × PyVal))
  location : Option (Option String)
deriving DecidableEq

/-- Outcomes of the external calls, supplied as inputs: AWS client
construction (`_initialize_clients`, which the source lets raise),
`json.loads` on text (deterministic stdlib behaviour), the two
filter-model invocations (each the composite invoke/read/parse/extract,
`.error` = any exception from it), knowledge-base retrieval, the parsed
response body of the generation call, and the citation-model text.
The request payloads the source assembles flow only into these calls,
and the replies are unconstrained by them, so the oracle fields are
values rather than functions of the prompts. -/
structure Oracle where
  initClients : Except Err Unit
  jsonParse : String → Except Err PyVal
  extractModel : Except Err String
  filterModel : Except Err String
  retrieve : Except Err (List RetrievedResult)
  generate : Except Err PyVal
  citationModel : Except Err String

/-! ### `_extract_datetime_references` and `_generate_metadata_filter` -/

/-- A processed datetime reference (lines 578-584). -/
structure DTRef where
  original : PyVal
  startIso : String
  startUnix : Int
  endIso : String
  endUnix : Int
deriving DecidableEq

/-- The per-item loop of lines 571-584.  A non-dict item makes
`ref.get` raise (`Option.none` here, degrading the whole extraction to
`[]`); a falsy `'parsed'` entry or one whose range does not parse is
skipped (a truthy non-string makes `parse_datetime_range` swallow an
`AttributeError` and is likewise skipped). -/
def processRefs : List PyVal → Option (List DTRef)
  | [] => Option.some []
  | ref :: rest =>
    match ref with
    | .dict kvs =>
      let parsedV := (alookup ("parsed") kvs).getD PyVal.none
      match parsedV with
      | .str s =>
        if s = "" then processRefs rest
        else
          match parse_datetime_range s with
          | Option.some (si, su, ei, eu) =>
            (processRefs rest).map
              (fun l => ⟨(alookup ("original") kvs).getD (PyVal.str ""), si, su, ei, eu⟩ :: l)
          | Option.none => processRefs rest
      | v => if pyFalsy v then processRefs rest else processRefs rest
    | _ => Option.none

/-- `_extract_datetime_references` (lines 489-595): every failure mode
(invocation error, JSON error, non-list payload, malformed item) is
caught and degrades to the empty reference list. -/
def extract_datetime_references (o : Oracle) : List DTRef :=
  match o.extractModel with
  | .error _ => []
  | .ok txt =>
    match o.jsonParse (remove_markdown_code_blocks (pyStrip txt)) with
    | .error _ => []
    | .ok (.list refs) => (processRefs refs).getD []
    | .ok _ => []

def originalIsStr (r : DTRef) : Bool :=
  match r.original with
  | .str _ => true
  | _ => false

/-- `_generate_metadata_filter` (lines 597-735), returning the filter
(absent = `None`) together with whether any model invocation was
attempted.  Returns immediately when filtering is disabled; the big
`try` converts every exception (definitions that fail to parse, a
non-string `original` reaching `str.replace`, invocation errors, filter
JSON that fails to parse) into `None`; a falsy parsed definitions value
or filter value is also `None`.  The prompt text assembled from the
definitions and references flows only into the model call and is not
otherwise observable. -/
def generate_metadata_filter (v : Valves) (o : Oracle) (query : String) :
    Option PyVal × Bool :=
  if !v.enable_metadata_filtering then (Option.none, false)
  else
    match o.jsonParse v.metadata_definitions with
    | .error _ => (Option.none, false)
    | .ok defs =>
      if pyFalsy defs then (Option.none, false)
      else
        let refs := extract_datetime_references o
        if !(refs.all originalIsStr) then (Option.none, true)
        else
          match o.filterModel with
          | .error _ => (Option.none, true)
          | .ok txt =>
            match o.jsonParse (remove_markdown_code_blocks (pyStrip txt)) with
            | .error _ => (Option.none, true)
            | .ok f => if pyFalsy f then (Option.none, true) else (Option.some f, true)

/-! ### Context assembly (lines 780-828) -/

/-- The metadata entries the loop at lines 803-807 keeps: always-include
fields (`source_uri`, `created_at_iso`) and fields used in the filter. -/
def metadataToShow (m : List (String × PyVal)) (fks : List PyVal) :
    List (String × PyVal) :=
  m.filter fun kv =>
    kv.1 == "source_uri" || kv.1 == "created_at_iso" || fks.contains (PyVal.str kv.1)

/-- The document entry for one retrieval result (lines 788-824); empty
when the result carries no content text. -/
def docEntry (i : Nat) (r : RetrievedResult) (fks : List PyVal) : String :=
  match r.contentText with
  | Option.none => ""
  | Option.some content =>
    let metaBlock :=
      match r.metadata with
      | Option.some m =>
        if m.isEmpty then ""
        else
          let ms := metadataToShow m fks
          if ms.isEmpty then ""
          else
            "Metadata:\n" ++
              String.join (ms.map fun kv => "  - " ++ kv.1 ++ ": " ++ pyStr kv.2 ++ "\n") ++
              "\n"
      | Option.none => ""
    let locBlock :=
      match r.location with
      | Option.some loc => "Source: " ++ loc.getD ("Unknown") ++ "\n\n"
      | Option.none => ""
    "[Document " ++ toString i ++ "]\n" ++ metaBlock ++ locBlock ++
      "Content:\n" ++ content ++ "\n\n"

/-- The key/value pairs rendered in a passage's Metadata block (the
`metadata_to_show` mapping of lines 803-814, produced only for results
with content text and a truthy metadata mapping). -/
def renderedMetadataPairs (r : RetrievedResult) (fks : List PyVal) :
    List (String × PyVal) :=
  match r.contentText with
  | Option.none => []
  | Option.some _ =>
    match r.metadata with
    | Option.none => []
    | Option.some m => if m.isEmpty then [] else metadataToShow m fks

def buildContextAux : List RetrievedResult → List PyVal → Nat → String → String
  | [], _, _, acc => acc
  | r :: rest, fks, i, acc => buildContextAux rest fks (i + 1) (acc ++ docEntry i r fks)

/-- The `context` accumulated by the loop at lines 788-824 (`enumerate`
starts at 1 and counts skipped results too). -/
def buildContext (results : List RetrievedResult) (fks : List PyVal) : String :=
  buildContextAux results fks 1 ""

/-! ### `query_knowledge_base` (lines 737-889) -/

/-- The inner `except ClientError` handler of lines 862-876. -/
def classifyGenClientError (msg : String) : String :=
  if containsSub msg ("AccessDeniedException") then
    "Error: Access denied to AWS Bedrock. Please check your AWS credentials and permissions."
  else if containsSub msg ("ValidationException") then
    "Error: Invalid request to AWS Bedrock. Please check your model ID and parameters. Details: " ++ msg
  else if containsSub msg ("ThrottlingException") then
    "Error: AWS Bedrock request was throttled. Please try again later."
  else if containsSub msg ("ServiceQuotaExceededException") then
    "Error: AWS Bedrock service quota exceeded. Please try again later or request a quota increase."
  else "AWS Bedrock error: " ++ msg

/-- The outer `except ClientError` handler of lines 878-886. -/
def classifyKBClientError (v : Valves) (msg : String) : String :=
  if containsSub msg ("ResourceNotFoundException") then
    "Error: Knowledge Base ID \x27" ++ v.knowledge_base_id ++
      "\x27 not found. Please check your Knowledge Base ID."
  else if containsSub msg ("AccessDeniedException") then
    "Error: Access denied to AWS Bedrock Knowledge Base. Please check your AWS credentials and permissions."
  else if containsSub msg ("ValidationException") then
    "Error: Invalid request to AWS Bedrock Knowledge Base. Please check your parameters."
  else "AWS Bedrock Knowledge Base error: " ++ msg

/-- `_parse_model_response` (lines 468-487): `content[0]['text']` of the
parsed body; a missing key or empty list raises (`KeyError`/
`IndexError`, `.error` here).  A present non-string value would be
returned raw by CPython; it is rendered with `str()` in this typed
embedding, and no claim touches that corner. -/
def parse_model_response (body : PyVal) : Except Err String :=
  match body with
  | .dict kvs =>
    match alookup ("content") kvs with
    | Option.some (.list (first :: _)) =>
      match first with
      | .dict k2 =>
        match alookup ("text") k2 with
        | Option.some (.str s) => .ok s
        | Option.some v => .ok (pyStr v)
        | Option.none => .error ⟨false, "KeyError: \x27text\x27"⟩
      | _ => .error ⟨false, "TypeError: indices"⟩
    | Option.some _ => .error ⟨false, "IndexError: list index out of range"⟩
    | Option.none => .error ⟨false, "KeyError: \x27content\x27"⟩
  | _ => .error ⟨false, "TypeError: indices"⟩

instance [DecidableEq ε] [DecidableEq α] : DecidableEq (Except ε α) := fun x y =>
  match x, y with
  | .ok a, .ok b => if h : a = b then .isTrue (by rw [h]) else .isFalse (by simp [h])
  | .error a, .error b => if h : a = b then .isTrue (by rw [h]) else .isFalse (by simp [h])
  | .ok _, .error _ => .isFalse (by simp)
  | .error _, .ok _ => .isFalse (by simp)

/-- The result of `query_knowledge_base` together with whether the
generation model was invoked. -/
structure KBOutcome where
  result : Except Err String
  genCalled : Bool
deriving DecidableEq

/-- `query_knowledge_base` (lines 737-889).  `_initialize_clients` runs
*before* the `try`, so its exception propagates (`.error`); inside the
`try`, filter generation is total, a retrieval exception is classified
by the outer handlers, an empty context short-circuits to the fixed
no-information string before any generation call, an unsupported model
id raises `ValueError` out of the inner `try` into the outer generic
handler, and a generation-call exception is classified by the inner
(`ClientError`) or outer (generic) handler. -/
def query_knowledge_base (v : Valves) (o : Oracle) (query : String)
    (_chatId : Option String) (_conversationHistory : String) : KBOutcome :=
  match o.initClients with
  | .error e => ⟨.error e, false⟩
  | .ok _ =>
    let mf := (generate_metadata_filter v o query).1
    match o.retrieve with
    | .error e =>
      ⟨.ok (if e.isClient then classifyKBClientError v e.msg
            else "Error querying knowledge base: " ++ e.msg), false⟩
    | .ok results =>
      let fks := extract_filter_keys mf
      let context := buildContext results fks
      if context = "" then
        ⟨.ok ("I couldn\x27t find any relevant information in the knowledge base."), false⟩
      else if !(containsSub (lowerStr v.model_id) ("anthropic.claude-3")) then
        ⟨.ok ("Error querying knowledge base: Unsupported model ID: " ++
          lowerStr v.model_id ++ ". Only Claude 3 models are supported."), false⟩
      else
        match o.generate with
        | .error e =>
          ⟨.ok (if e.isClient then classifyGenClientError e.msg
                else "Error querying knowledge base: " ++ e.msg), true⟩
        | .ok body =>
          match parse_model_response body with
          | .ok text => ⟨.ok text, true⟩
          | .error e => ⟨.ok ("Error querying knowledge base: " ++ e.msg), true⟩

/-! ### `pipe` (lines 891-990) -/

/-- `_format_conversation_history` (lines 381-411). -/
def format_conversation_history (v : Valves)
    (messages : List (List (String × String))) : String :=
  if !v.use_conversation_history || messages.isEmpty then ""
  else
    let history0 := if messages.length > 1 then messages.dropLast else []
    let history :=
      if history0.length > v.max_history_messages then
        history0.drop (history0.length - v.max_history_messages)
      else history0
    if history.isEmpty then ""
    else
      "Previous conversation:\n\n" ++
        String.join (history.map fun msg =>
          let role := (alookup ("role") msg).getD ""
          let content := (alookup ("content") msg).getD ""
          if role = "user" then "User: " ++ content ++ "\n\n"
          else if role = "assistant" then "Assistant: " ++ content ++ "\n\n"
          else "") ++ "\n"

/-- A terminal `pipe` outcome: the answer string, or the error
dictionary `{'error': msg}`. -/
inductive PipeResult where
  | answer : String → PipeResult
  | errorDict : String → PipeResult
deriving DecidableEq

/-- `pipe` (lines 891-990), taking `body['messages']` (messages typed as
string-to-string mappings; the body mutation that appends the assistant
reply is not observable here, and the status emissions are fire-and-
forget no-ops in this model).  `question = messages[-1]['content']` runs
*before* the `try`, so a last message without a `content` key raises a
`KeyError` out of `pipe` (`.error`); everything afterwards is inside
`try ... except Exception` and yields a terminal `PipeResult`. -/
def pipe (v : Valves) (o : Oracle) (messages : List (List (String × String))) :
    Except Err PipeResult :=
  match messages.getLast? with
  | Option.none => .ok (.errorDict ("No messages found in the request body"))
  | Option.some lastMsg =>
    match alookup ("content") lastMsg with
    | Option.none => .error ⟨false, "KeyError: \x27content\x27"⟩
    | Option.some question =>
      if v.aws_access_key_id = "" || v.aws_secret_access_key = "" then
        .ok (.errorDict ("AWS credentials are not configured. Please set aws_access_key_id and aws_secret_access_key in the function settings."))
      else if v.knowledge_base_id = "" then
        .ok (.errorDict ("Knowledge Base ID is not configured. Please set knowledge_base_id in the function settings."))
      else
        let hist :=
          if v.use_conversation_history then format_conversation_history v messages
          else ""
        match (query_knowledge_base v o question Option.none hist).result with
        | .ok s => .ok (.answer s)
        | .error e => .ok (.errorDict ("Error during knowledge base query: " ++ e.msg))

/-! ### Entity name resolution (spec-modelled) -/

/-- The closed honorific set of spec §4.2, lowercased and without the
optional trailing period. -/
def honorificBases : List String :=
  ["dr", "doctor", "prof", "professor", "mr", "mrs", "ms", "sir", "rev",
   "capt", "captain"]

/-- A token that is a supported honorific title, matched
case-insensitively, with or without a trailing period. -/
def isHonorificToken (t : String) : Bool :=
  let ds := t.data.map Char.toLower
  honorificBases.contains
    ((if ds.getLast? = Option.some '.' then ds.dropLast else ds).asString)

/-- Modelled from the spec: `parse_name_elements` is absent from `src/`
(only `test_entity_resolution.py` and `demo_entity_resolution.py` import
it from the connector module).  Spec §4.2: strip the closed set of
honorific titles matched case-insensitively at the start of the string,
with or without trailing period, collapse internal whitespace, then
split on whitespace; the remaining tokens keep their original case and
order; titles-only or empty/whitespace-only input yields the empty
sequence. -/
def parse_name_elements (name : String) : List String :=
  (splitWsL name.data).dropWhile isHonorificToken

/-! ### Citation attribution (spec-modelled) -/

/-- One attribution span: a verbatim answer substring and the 1-based
passage indices supporting it (spec §3, *CitationSpan*). -/
structure CitationSpan where
  answer_text : String
  chunk_ids : List Int
deriving DecidableEq

def intsOf : List PyVal → Option (List Int)
  | [] => Option.some []
  | .int n :: rest => (intsOf rest).map (n :: ·)
  | _ :: _ => Option.none

def spansOf : List PyVal → Option (List CitationSpan)
  | [] => Option.some []
  | .dict kvs :: rest =>
    match alookup ("answer_text") kvs, alookup ("chunk_ids") kvs with
    | Option.some (.str t), Option.some (.list ids) =>
      match intsOf ids with
      | Option.some ns => (spansOf rest).map (⟨t, ns⟩ :: ·)
      | Option.none => Option.none
    | _, _ => Option.none
  | _ :: _ => Option.none

/-- The `{citations: [{answer_text, chunk_ids}, ...]}` payload of spec
§4.6 step 1; any missing or ill-typed field is a failure. -/
def getCitationSpans (j : PyVal) : Option (List CitationSpan) :=
  match j with
  | .dict kvs =>
    match alookup ("citations") kvs with
    | Option.some (.list items) => spansOf items
    | _ => Option.none
  | _ => Option.none

/-- Index of the first occurrence of `needle` in `hay` (Python
`str.find`, nonnegative side). -/
def findSubAt (hay needle : List Char) : Option Nat :=
  if needle.isPrefixOf hay then Option.some 0
  else
    match hay with
    | [] => Option.none
    | _ :: t => (findSubAt t needle).map (· + 1)

/-- Insert `ins` immediately after the first occurrence of `sub` in
`hay` (spec §4.6 step 3); no occurrence leaves `hay` unchanged. -/
def insertAfterFirst (hay sub ins : String) : String :=
  match findSubAt hay.data sub.data with
  | Option.none => hay
  | Option.some i =>
    ((hay.data.take (i + sub.data.length)) ++ ins.data ++
      (hay.data.drop (i + sub.data.length))).asString

/-- Bracketed inline markers, one per supporting chunk id, in order. -/
def citeMarks (ids : List Int) : String :=
  String.join (ids.map fun id => "[" ++ toString id ++ "]")

def applySpans (answer : String) : List CitationSpan → String
  | [] => answer
  | sp :: rest => applySpans (insertAfterFirst answer sp.answer_text (citeMarks sp.chunk_ids)) rest

/-- Quoted preview of a passage text: first 50 characters plus a
literal ellipsis when truncated (spec §4.6 step 4). -/
def citePreview (t : String) : String :=
  if t.data.length > 50 then (t.data.take 50).asString ++ "..." else t

def dedupInts (ids : List Int) : List Int :=
  ids.foldl (fun acc i => if i ∈ acc then acc else acc ++ [i]) []

/-- One trailing-citation line: the passage index, the quoted preview,
and a markdown link using the source location as text and target. -/
def citationLine (results : List RetrievedResult) (id : Int) : String :=
  match results.get? (id.toNat - 1) with
  | Option.some r =>
    let uri := (r.location.getD Option.none).getD ("Unknown")
    toString id ++ ". \"" ++ citePreview (r.contentText.getD "") ++ "\" [" ++
      uri ++ "](" ++ uri ++ ")"
  | Option.none => ""

def validChunkId (n : Nat) (id : Int) : Bool := 1 ≤ id && id ≤ (n : Int)

/-- Modelled from the spec: `_generate_citations` and the
`enable_citations` valve are absent from `src/` (only
`test_citations.py`, `demo_citations.py` and `manual_citation_test.py`
exercise them).  Spec §4.6: if citations are disabled or the passage
list is empty, return the answer unchanged; otherwise one model call
produces a JSON `{citations: ...}` payload (fence-stripped as in §4.3
step 3); every failure — model-call error, malformed JSON, missing
fields, an out-of-range chunk id — returns the original uncited answer;
on success, insert inline markers after each cited substring's first
occurrence and append a deduplicated numbered Citations section. -/
def generate_citations (v : Valves) (o : Oracle) (answer : String)
    (results : List RetrievedResult) : String :=
  if !v.enable_citations then answer
  else if results.isEmpty then answer
  else
    match o.citationModel with
    | .error _ => answer
    | .ok txt =>
      match o.jsonParse (remove_markdown_code_blocks (pyStrip txt)) with
      | .error _ => answer
      | .ok j =>
        match getCitationSpans j with
        | Option.none => answer
        | Option.some spans =>
          if spans.all (fun sp => sp.chunk_ids.all (validChunkId results.length)) then
            applySpans answer spans ++ "\n\nCitations:\n" ++
              String.join ((dedupInts (spans.map (·.chunk_ids)).flatten).map
                (fun id => citationLine results id ++ "\n"))
          else answer

/-! ### Auxiliary definitions used by the theorems -/

/-- Folding `addKey` over a key sequence: the normal form against which
the interleaved traversal `extractKeysVal` is characterised. -/
def foldAdd (acc ks : List PyVal) : List PyVal := ks.foldl (fun a k => addKey k a) acc

/-- Shape check for `YYYY-MM-DDTHH:MM:SSZ` (four year digits). -/
def isoShaped (s : String) : Bool :=
  match s.data with
  | [y1, y2, y3, y4, a1, m1, m2, a2, d1, d2, at', h1, h2, a3, n1, n2, a4, s1, s2, az] =>
    isDigitC y1 && isDigitC y2 && isDigitC y3 && isDigitC y4 && (a1 == '-') &&
    isDigitC m1 && isDigitC m2 && (a2 == '-') && isDigitC d1 && isDigitC d2 &&
    (at' == 'T') && isDigitC h1 && isDigitC h2 && (a3 == ':') && isDigitC n1 &&
    isDigitC n2 && (a4 == ':') && isDigitC s1 && isDigitC s2 && (az == 'Z')
  | _ => false

/-- Modelled from the spec: the instant a second-precision UTC ISO
string (`YYYY-MM-DDTHH:MM:SSZ`) denotes, in Unix seconds — obtained by
reading it back with the strict ISO format and taking the epoch seconds
of its fields.  Used to state "each Unix value denotes the same instant
as its ISO string". -/
def isoInstant (s : String) : Option Int := (parseFmt1 s.data).map fieldsEpochSecs

/-- The field bounds every cascade result satisfies (established below
in `parseCascade_ok`). -/
def DTok (t : DT) : Prop :=
  1 ≤ t.y ∧ t.y ≤ 9999 ∧ 1 ≤ t.m ∧ t.m ≤ 12 ∧ 1 ≤ t.d ∧
  t.d ≤ daysInMonth t.y t.m ∧ t.hh ≤ 23 ∧ t.mi ≤ 59 ∧ t.ss ≤ 59 ∧
  t.micro < 1000000

/-! ## Theorems -/

/-! ### Filter-key extraction (C7) -/

theorem asString_data (l : List Char) : (List.asString l).data = l := rfl

theorem foldAdd_nil (acc : List PyVal) : foldAdd acc [] = acc := rfl

theorem foldAdd_append (acc ks1 ks2 : List PyVal) :
    foldAdd acc (ks1 ++ ks2) = foldAdd (foldAdd acc ks1) ks2 :=
  List.foldl_append _ _ _ _

mutual

theorem extractKeysVal_eq : ∀ (v : PyVal) (acc : List PyVal),
    extractKeysVal v acc = foldAdd acc (specLeafKeysVal v)
  | .none, acc => rfl
  | .bool _, acc => rfl
  | .int _, acc => rfl
  | .str _, acc => rfl
  | .list xs, acc => by
      simpa only [extractKeysVal, specLeafKeysVal] using extractKeysListAux_eq xs acc
  | .dict kvs, acc => by
      simp only [extractKeysVal, specLeafKeysVal]
      rw [extractKeysKVs_eq kvs, foldAdd_append]
      cases h : alookup ("key") kvs <;> simp [h, foldAdd]

theorem extractKeysKVs_eq : ∀ (kvs : List (String × PyVal)) (acc : List PyVal),
    extractKeysKVs kvs acc = foldAdd acc (specLeafKeysKVs kvs)
  | [], acc => rfl
  | (k, v) :: rest, acc => by
      simp only [extractKeysKVs, specLeafKeysKVs]
      rw [extractKeysKVs_eq rest, extractKeysVal_eq v, foldAdd_append]

theorem extractKeysListAux_eq : ∀ (xs : List PyVal) (acc : List PyVal),
    extractKeysListAux xs acc = foldAdd acc (specLeafKeysList xs)
  | [], acc => rfl
  | x :: rest, acc => by
      simp only [extractKeysListAux, specLeafKeysList]
      rw [extractKeysListAux_eq rest, extractKeysVal_eq x, foldAdd_append]

end

theorem mem_addKey (k x : PyVal) (acc : List PyVal) :
    x ∈ addKey k acc ↔ x ∈ acc ∨ x = k := by
  unfold addKey
  by_cases h : k ∈ acc
  · simp only [if_pos h]
    constructor
    · exact Or.inl
    · rintro (hx | rfl) <;> [exact hx; exact h]
  · simp [if_neg h, List.mem_append]

theorem mem_foldAdd (ks : List PyVal) : ∀ (acc : List PyVal) (x : PyVal),
    x ∈ foldAdd acc ks ↔ x ∈ acc ∨ x ∈ ks := by
  induction ks with
  | nil => simp [foldAdd]
  | cons k ks ih =>
      intro acc x
      show x ∈ foldAdd (addKey k acc) ks ↔ _
      rw [ih, mem_addKey]
      simp only [List.mem_cons]
      tauto

theorem nodup_addKey (k : PyVal) (acc : List PyVal) (h : acc.Nodup) :
    (addKey k acc).Nodup := by
  unfold addKey
  by_cases hk : k ∈ acc
  · simpa [if_pos hk]
  · rw [if_neg hk, List.nodup_append]
    refine ⟨h, List.nodup_singleton k, ?_⟩
    intro a ha hb
    rw [List.mem_singleton] at hb
    exact hk (hb ▸ ha)

theorem nodup_foldAdd (ks : List PyVal) : ∀ acc : List PyVal, acc.Nodup →
    (foldAdd acc ks).Nodup := by
  induction ks with
  | nil => intro acc h; exact h
  | cons k ks ih => intro acc h; exact ih _ (nodup_addKey k acc h)

theorem foldAdd_stable (ks : List PyVal) : ∀ acc : List PyVal,
    (∀ x ∈ ks, x ∈ acc) → foldAdd acc ks = acc := by
  induction ks with
  | nil => intro acc _; rfl
  | cons k ks ih =>
      intro acc h
      show foldAdd (addKey k acc) ks = acc
      have hk : k ∈ acc := h k (by simp)
      have : addKey k acc = acc := by simp [addKey, if_pos hk]
      rw [this]
      exact ih acc fun x hx => h x (by simp [hx])

/-- C7: `_extract_filter_keys` is a pure set computation: the empty set
for an absent or empty filter; duplicate-free output; re-traversing the
same filter into the already-computed set adds nothing (idempotence);
and for a non-falsy filter the computed set contains exactly the leaf
`'key'` values obtained by descending into all nested dict values and
list elements regardless of operator names, each exactly once however
often it is duplicated.  Totality (no side effects, never fails) is by
construction of the Lean function. -/
theorem claim_C7 :
    (extract_filter_keys Option.none = [] ∧
      extract_filter_keys (Option.some (PyVal.dict [])) = []) ∧
    (∀ mf : Option PyVal, (extract_filter_keys mf).Nodup) ∧
    (∀ v : PyVal, extractKeysVal v (extractKeysVal v []) = extractKeysVal v []) ∧
    (∀ v : PyVal, pyFalsy v = false →
      ∀ x : PyVal, x ∈ extract_filter_keys (Option.some v) ↔ x ∈ specLeafKeysVal v) := by
  refine ⟨⟨rfl, rfl⟩, ?_, ?_, ?_⟩
  · intro mf
    match mf with
    | Option.none => exact List.nodup_nil
    | Option.some v =>
        unfold extract_filter_keys
        by_cases h : pyFalsy v
        · simp [h]
        · simp only [h, Bool.false_eq_true, if_false]
          rw [extractKeysVal_eq]
          exact nodup_foldAdd _ _ List.nodup_nil
  · intro v
    rw [extractKeysVal_eq v (extractKeysVal v [])]
    refine foldAdd_stable _ _ fun x hx => ?_
    rw [extractKeysVal_eq, mem_foldAdd]
    exact Or.inr hx
  · intro v hv x
    show (x ∈ if pyFalsy v = true then ([] : List PyVal) else extractKeysVal v []) ↔ _
    rw [if_neg (by simp [hv]), extractKeysVal_eq, mem_foldAdd]
    simp

/-- Witness for C7 on a concrete nested filter with a duplicated key. -/
theorem claim_C7_witness :
    pyFalsy (PyVal.dict [("andAll", PyVal.list
      [PyVal.dict [("in", PyVal.dict [("key", PyVal.str "author_name"), ("value", PyVal.str "John")])],
       PyVal.dict [("in", PyVal.dict [("key", PyVal.str "author_name"), ("value", PyVal.str "Smith")])]])]) = false ∧
    (PyVal.str "author_name" ∈ extract_filter_keys (Option.some (PyVal.dict [("andAll", PyVal.list
      [PyVal.dict [("in", PyVal.dict [("key", PyVal.str "author_name"), ("value", PyVal.str "John")])],
       PyVal.dict [("in", PyVal.dict [("key", PyVal.str "author_name"), ("value", PyVal.str "Smith")])]])])) ↔
      PyVal.str "author_name" ∈ specLeafKeysVal (PyVal.dict [("andAll", PyVal.list
      [PyVal.dict [("in", PyVal.dict [("key", PyVal.str "author_name"), ("value", PyVal.str "John")])],
       PyVal.dict [("in", PyVal.dict [("key", PyVal.str "author_name"), ("value", PyVal.str "Smith")])]])])) :=
  ⟨by decide, claim_C7.2.2.2 _ (by decide) _⟩

/-! ### Entity name parsing (C9) -/

/-- C9 (spec-modelled, `parse_name_elements` being absent from `src/`):
honorific titles are stripped from the front case-insensitively with or
without trailing period, whitespace is collapsed, the remaining tokens
keep case and order, and an input whose tokens are all honorifics (in
particular a lone title, or empty/whitespace-only input, whose token
list is empty) yields the empty sequence. -/
theorem claim_C9 :
    parse_name_elements ("Dr. John Smith") = ["John", "Smith"] ∧
    parse_name_elements ("Prof. Mary Jane Watson") = ["Mary", "Jane", "Watson"] ∧
    parse_name_elements ("PROF. JOHN SMITH") = ["JOHN", "SMITH"] ∧
    ∀ s : String, (∀ t ∈ splitWsL s.data, isHonorificToken t = true) →
      parse_name_elements s = [] := by
  refine ⟨by decide, by decide, by decide, fun s h => ?_⟩
  unfold parse_name_elements
  exact List.dropWhile_eq_nil_iff.mpr h

/-- Witness for C9: a lone title with trailing period, and a
whitespace-only input. -/
theorem claim_C9_witness :
    parse_name_elements ("Dr.") = [] ∧ parse_name_elements ("   ") = [] :=
  ⟨claim_C9.2.2.2 _ (by decide), claim_C9.2.2.2 _ (by decide)⟩

/-! ### Context assembly (C2, C3) -/

theorem mem_metadataToShow (m : List (String × PyVal)) (fks : List PyVal)
    (k : String) (v' : PyVal) :
    (k, v') ∈ metadataToShow m fks ↔
      (k, v') ∈ m ∧ (k = "source_uri" ∨ k = "created_at_iso" ∨ PyVal.str k ∈ fks) := by
  unfold metadataToShow
  rw [List.mem_filter]
  simp only [List.contains, List.elem_iff, Bool.or_eq_true, beq_iff_eq]
  tauto

/-- C2: in the assembled prompt, a key/value pair of a passage that has
text content appears in its rendered Metadata block iff the pair is in
the passage's metadata map and the key belongs to the union of the
always-include set `{source_uri, created_at_iso}` and the keys extracted
from the active filter; both always-include fields appear whenever
present, whether or not a filter was used, and a field outside the union
never appears. -/
theorem claim_C2 :
    ∀ (r : RetrievedResult) (mf : Option PyVal) (t : String),
      r.contentText = Option.some t →
      (∀ (k : String) (v' : PyVal),
        (k, v') ∈ renderedMetadataPairs r (extract_filter_keys mf) ↔
          (k, v') ∈ r.metadata.getD [] ∧
            (k = "source_uri" ∨ k = "created_at_iso" ∨
              PyVal.str k ∈ extract_filter_keys mf)) ∧
      (∀ v' : PyVal, ("source_uri", v') ∈ r.metadata.getD [] →
        ("source_uri", v') ∈ renderedMetadataPairs r (extract_filter_keys mf)) ∧
      (∀ v' : PyVal, ("created_at_iso", v') ∈ r.metadata.getD [] →
        ("created_at_iso", v') ∈ renderedMetadataPairs r (extract_filter_keys mf)) ∧
      (∀ (k : String) (v' : PyVal),
        ¬(k = "source_uri" ∨ k = "created_at_iso" ∨
            PyVal.str k ∈ extract_filter_keys mf) →
        (k, v') ∉ renderedMetadataPairs r (extract_filter_keys mf)) := by
  intro r mf t hct
  have key : ∀ (k : String) (v' : PyVal),
      (k, v') ∈ renderedMetadataPairs r (extract_filter_keys mf) ↔
        (k, v') ∈ r.metadata.getD [] ∧
          (k = "source_uri" ∨ k = "created_at_iso" ∨
            PyVal.str k ∈ extract_filter_keys mf) := by
    intro k v'
    unfold renderedMetadataPairs
    rw [hct]
    cases hm : r.metadata with
    | none => simp
    | some m =>
        simp only [Option.getD]
        by_cases hme : m.isEmpty
        · obtain rfl : m = [] := List.isEmpty_iff.mp hme
          simp
        · simp only [hme, Bool.false_eq_true, if_false]
          exact mem_metadataToShow m _ k v'
  refine ⟨key, fun v' h => ?_, fun v' h => ?_, fun k v' h => ?_⟩
  · exact (key _ v').mpr ⟨h, Or.inl rfl⟩
  · exact (key _ v').mpr ⟨h, Or.inr (Or.inl rfl)⟩
  · intro hmem
    exact h ((key k v').mp hmem).2

/-- Witness for C2: a passage carrying `source_uri`, `created_at_iso`
and an extraneous field, with no filter: the always-include pairs are
rendered and the extraneous one is not. -/
theorem claim_C2_witness :
    ("source_uri", PyVal.str "s3://b/d.pdf") ∈
      renderedMetadataPairs
        ⟨Option.some "text", Option.some
          [("source_uri", PyVal.str "s3://b/d.pdf"),
           ("created_at_iso", PyVal.str "2025-08-01T00:00:00Z"),
           ("irrelevant", PyVal.int 7)], Option.none⟩
        (extract_filter_keys Option.none) ∧
    ("irrelevant", PyVal.int 7) ∉
      renderedMetadataPairs
        ⟨Option.some "text", Option.some
          [("source_uri", PyVal.str "s3://b/d.pdf"),
           ("created_at_iso", PyVal.str "2025-08-01T00:00:00Z"),
           ("irrelevant", PyVal.int 7)], Option.none⟩
        (extract_filter_keys Option.none) := by
  constructor
  · exact (claim_C2 _ Option.none _ rfl).2.1 _ (by decide)
  · exact (claim_C2 _ Option.none _ rfl).2.2.2 _ _ (by decide)

theorem buildContextAux_all_skipped :
    ∀ (rs : List RetrievedResult), (∀ r ∈ rs, r.contentText = Option.none) →
      ∀ (fks : List PyVal) (i : Nat) (acc : String), buildContextAux rs fks i acc = acc := by
  intro rs
  induction rs with
  | nil => intro _ fks i acc; rfl
  | cons r rest ih =>
      intro h fks i acc
      have hr : r.contentText = Option.none := h r (by simp)
      show buildContextAux rest fks (i + 1) (acc ++ docEntry i r fks) = acc
      have hd : docEntry i r fks = "" := by unfold docEntry; rw [hr]
      rw [hd, String.append_empty]
      exact ih (fun x hx => h x (by simp [hx])) fks (i + 1) acc

/-- C3: when retrieval succeeds with no passage carrying a content text
field (in particular an empty result list), `query_knowledge_base`
returns exactly the fixed no-information string and performs no
generation model call. -/
theorem claim_C3 :
    ∀ (v : Valves) (o : Oracle) (q hist : String) (cid : Option String)
      (rs : List RetrievedResult),
      o.initClients = .ok () → o.retrieve = .ok rs →
      (∀ r ∈ rs, r.contentText = Option.none) →
      query_knowledge_base v o q cid hist =
        ⟨.ok ("I couldn\x27t find any relevant information in the knowledge base."), false⟩ := by
  intro v o q hist cid rs hinit hret hno
  unfold query_knowledge_base
  rw [hinit, hret]
  have hctx : buildContext rs (extract_filter_keys (generate_metadata_filter v o q).1) = "" :=
    buildContextAux_all_skipped rs hno _ 1 ""
  simp only [buildContext] at hctx
  simp [buildContext, hctx]

/-- Witness for C3: empty retrieval, and retrieval whose single result
has no content text. -/
theorem claim_C3_witness :
    query_knowledge_base
      ⟨"AK", "SK", "KB", "anthropic.claude-3-5-sonnet-20240620-v1:0", 5, true, 10,
        false, "[]", true⟩
      ⟨.ok (), fun _ => .error ⟨false, "j"⟩, .error ⟨false, "m"⟩, .error ⟨false, "m"⟩,
        .ok [⟨Option.none, Option.some [("source_uri", PyVal.str "s3://b/d.pdf")],
          Option.some (Option.some "s3://b/d.pdf")⟩],
        .ok (PyVal.str "unused"), .error ⟨false, "m"⟩⟩
      "q" Option.none "" =
      ⟨.ok ("I couldn\x27t find any relevant information in the knowledge base."), false⟩ :=
  claim_C3 _ _ _ _ _ _ rfl rfl (by decide)

/-! ### Filter synthesis soft-fail contract (C6) -/

/-- C6: `_generate_metadata_filter` returns `None` with no model call
when filtering is disabled, or when the metadata definitions fail to
parse or parse to an empty/falsy value; and the result is `None`
whenever the filter-model call fails, its output fails to parse as
JSON, or its output normalises to `null`/the empty object.  The
function is total (no exception propagates) by construction. -/
theorem claim_C6 :
    ∀ (v : Valves) (o : Oracle) (q : String),
      (v.enable_metadata_filtering = false →
        generate_metadata_filter v o q = (Option.none, false)) ∧
      (∀ e : Err, o.jsonParse v.metadata_definitions = .error e →
        generate_metadata_filter v o q = (Option.none, false)) ∧
      (∀ defs : PyVal, o.jsonParse v.metadata_definitions = .ok defs →
        pyFalsy defs = true → generate_metadata_filter v o q = (Option.none, false)) ∧
      (∀ e : Err, o.filterModel = .error e →
        (generate_metadata_filter v o q).1 = Option.none) ∧
      (∀ (txt : String) (e : Err), o.filterModel = .ok txt →
        o.jsonParse (remove_markdown_code_blocks (pyStrip txt)) = .error e →
        (generate_metadata_filter v o q).1 = Option.none) ∧
      (∀ (txt : String) (f : PyVal), o.filterModel = .ok txt →
        o.jsonParse (remove_markdown_code_blocks (pyStrip txt)) = .ok f →
        pyFalsy f = true → (generate_metadata_filter v o q).1 = Option.none) := by
  intro v o q
  refine ⟨?_, ?_, ?_, ?_, ?_, ?_⟩
  · intro h; unfold generate_metadata_filter; simp [h]
  · intro e he
    unfold generate_metadata_filter
    by_cases hen : v.enable_metadata_filtering
    · simp [hen, he]
    · simp [hen]
  · intro defs hd hf
    unfold generate_metadata_filter
    by_cases hen : v.enable_metadata_filtering
    · simp [hen, hd, hf]
    · simp [hen]
  · intro e he
    unfold generate_metadata_filter
    by_cases hen : v.enable_metadata_filtering
    · cases hd : o.jsonParse v.metadata_definitions with
      | error _ => simp [hen, hd]
      | ok defs =>
          by_cases hf : pyFalsy defs
          · simp [hen, hd, hf]
          · by_cases hr : (extract_datetime_references o).all originalIsStr
            · simp [hen, hd, hf, hr, he]
            · simp [hen, hd, hf, hr]
    · simp [hen]
  · intro txt e ht he
    unfold generate_metadata_filter
    by_cases hen : v.enable_metadata_filtering
    · cases hd : o.jsonParse v.metadata_definitions with
      | error _ => simp [hen, hd]
      | ok defs =>
          by_cases hf : pyFalsy defs
          · simp [hen, hd, hf]
          · by_cases hr : (extract_datetime_references o).all originalIsStr
            · simp [hen, hd, hf, hr, ht, he]
            · simp [hen, hd, hf, hr]
    · simp [hen]
  · intro txt f ht hj hf
    unfold generate_metadata_filter
    by_cases hen : v.enable_metadata_filtering
    · cases hd : o.jsonParse v.metadata_definitions with
      | error _ => simp [hen, hd]
      | ok defs =>
          by_cases hdf : pyFalsy defs
          · simp [hen, hd, hdf]
          · by_cases hr : (extract_datetime_references o).all originalIsStr
            · simp [hen, hd, hdf, hr, ht, hj, hf]
            · simp [hen, hd, hdf, hr]
    · simp [hen]

/-- Witness for C6: filtering disabled (no model call), and — with
filtering enabled and a one-field schema — a model reply of `{}` inside
a code fence normalising to an absent filter. -/
theorem claim_C6_witness :
    generate_metadata_filter
      ⟨"AK", "SK", "KB", "anthropic.claude-3-5-sonnet-20240620-v1:0", 5, true, 10,
        false, "[]", true⟩
      ⟨.ok (), fun _ => .ok (PyVal.dict []), .ok "[]", .ok "\x7b\x7d",
        .ok [], .ok (PyVal.str "a"), .ok "x"⟩ "q" = (Option.none, false) ∧
    (generate_metadata_filter
      ⟨"AK", "SK", "KB", "anthropic.claude-3-5-sonnet-20240620-v1:0", 5, true, 10,
        true, "[\x7b\"key\": \"author_name\"\x7d]", true⟩
      ⟨.ok (),
        fun s => if s = "[]" then .ok (PyVal.list []) else .ok (PyVal.dict []),
        .ok "[]", .ok "```json\n\x7b\x7d\n```",
        .ok [], .ok (PyVal.str "a"), .ok "x"⟩ "q").1 = Option.none := by
  constructor
  · exact (claim_C6 _ _ _).1 rfl
  · exact (claim_C6 _ _ _).2.2.2.2.2 ("```json\n\x7b\x7d\n```") (PyVal.dict []) rfl (by decide) rfl

/-! ### Citation attribution contract (C10) -/

/-- C10 (spec-modelled, `_generate_citations` being absent from
`src/`): citation attribution returns the answer exactly unchanged when
citations are disabled or the passage list is empty, and on any failure
(model-call error, JSON that fails to parse, a payload with missing or
ill-typed fields) it returns the original uncited answer rather than
raising. -/
theorem claim_C10 :
    ∀ (v : Valves) (o : Oracle) (answer : String) (results : List RetrievedResult),
      (v.enable_citations = false → generate_citations v o answer results = answer) ∧
      (results = [] → generate_citations v o answer results = answer) ∧
      (∀ e : Err, o.citationModel = .error e →
        generate_citations v o answer results = answer) ∧
      (∀ (txt : String) (e : Err), o.citationModel = .ok txt →
        o.jsonParse (remove_markdown_code_blocks (pyStrip txt)) = .error e →
        generate_citations v o answer results = answer) ∧
      (∀ (txt : String) (j : PyVal), o.citationModel = .ok txt →
        o.jsonParse (remove_markdown_code_blocks (pyStrip txt)) = .ok j →
        getCitationSpans j = Option.none →
        generate_citations v o answer results = answer) := by
  intro v o answer results
  refine ⟨?_, ?_, ?_, ?_, ?_⟩
  · intro h; unfold generate_citations; simp [h]
  · intro h
    subst h
    unfold generate_citations
    by_cases hc : v.enable_citations <;> simp [hc]
  · intro e he
    unfold generate_citations
    by_cases hc : v.enable_citations
    · by_cases hr : results.isEmpty <;> simp [hc, hr, he]
    · simp [hc]
  · intro txt e ht he
    unfold generate_citations
    by_cases hc : v.enable_citations
    · by_cases hr : results.isEmpty <;> simp [hc, hr, ht, he]
    · simp [hc]
  · intro txt j ht hj hs
    unfold generate_citations
    by_cases hc : v.enable_citations
    · by_cases hr : results.isEmpty <;> simp [hc, hr, ht, hj, hs]
    · simp [hc]

/-- Witness for C10: citations disabled with a nonempty passage list
(identity), and enabled with a failing citation-model call (original
answer preserved). -/
theorem claim_C10_witness :
    generate_citations
      ⟨"AK", "SK", "KB", "m", 5, true, 10, false, "[]", false⟩
      ⟨.ok (), fun _ => .ok PyVal.none, .ok "[]", .ok "x", .ok [], .ok PyVal.none, .ok "x"⟩
      "This is a test answer."
      [⟨Option.some "Test content", Option.some [("source_uri", PyVal.str "s3://b/d.pdf")],
        Option.none⟩] = "This is a test answer." ∧
    generate_citations
      ⟨"AK", "SK", "KB", "m", 5, true, 10, false, "[]", true⟩
      ⟨.ok (), fun _ => .ok PyVal.none, .ok "[]", .ok "x", .ok [], .ok PyVal.none,
        .error ⟨false, "Model error"⟩⟩
      "Test answer"
      [⟨Option.some "Test content", Option.some [("source_uri", PyVal.str "s3://b/d.pdf")],
        Option.none⟩] = "Test answer" := by
  constructor
  · exact (claim_C10 _ _ _ _).1 rfl
  · exact (claim_C10 _ _ _ _).2.2.1 ⟨false, "Model error"⟩ rfl

/-! ### Orchestrator totality (C1) -/

/-- The claim of C1 is false as stated: `messages[-1]['content']` is
read *before* `pipe`'s `try`, so a request body whose last message lacks
a `content` key makes `pipe` raise a `KeyError` to its caller; and
`_initialize_clients` runs *before* `query_knowledge_base`'s `try` (and
is documented to raise), so a client-construction failure propagates out
of `query_knowledge_base` instead of producing a string. -/
theorem claim_C1_counterexample :
    pipe
      ⟨"AK", "SK", "KB", "anthropic.claude-3-5-sonnet-20240620-v1:0", 5, true, 10,
        false, "[]", true⟩
      ⟨.ok (), fun _ => .error ⟨false, "j"⟩, .error ⟨false, "m"⟩, .error ⟨false, "m"⟩,
        .ok [], .error ⟨false, "m"⟩, .error ⟨false, "m"⟩⟩
      [[("role", "user")]] = .error ⟨false, "KeyError: \x27content\x27"⟩ ∧
    (query_knowledge_base
      ⟨"AK", "SK", "KB", "anthropic.claude-3-5-sonnet-20240620-v1:0", 5, true, 10,
        false, "[]", true⟩
      ⟨.error ⟨false, "Failed to initialize AWS clients: boom"⟩,
        fun _ => .error ⟨false, "j"⟩, .error ⟨false, "m"⟩, .error ⟨false, "m"⟩,
        .ok [], .error ⟨false, "m"⟩, .error ⟨false, "m"⟩⟩
      "q" Option.none "").result =
      .error ⟨false, "Failed to initialize AWS clients: boom"⟩ := by
  exact ⟨by decide, by decide⟩

/-- C1 (amended): the totality holds away from the two pre-`try` reads:
`query_knowledge_base` returns a string for every input and oracle
whenever client construction does not raise, and `pipe` returns a
terminal result (answer string or error wrapper) for every body whose
last message (when one exists) carries a `content` key, whatever the
external calls do — including a client-construction failure, which
`pipe`'s own handler converts to an error wrapper. -/
theorem claim_C1_amended :
    (∀ (v : Valves) (o : Oracle) (q hist : String) (cid : Option String),
      o.initClients.isOk = true →
      (query_knowledge_base v o q cid hist).result.isOk = true) ∧
    (∀ (v : Valves) (o : Oracle) (messages : List (List (String × String))),
      (∀ lastMsg, messages.getLast? = Option.some lastMsg →
        (alookup ("content") lastMsg).isSome = true) →
      (pipe v o messages).isOk = true) := by
  constructor
  · intro v o q hist cid hinit
    unfold query_knowledge_base
    cases hi : o.initClients with
    | error e => rw [hi] at hinit; exact absurd hinit (by simp [Except.isOk, Except.toBool])
    | ok u =>
        cases hr : o.retrieve with
        | error e => rfl
        | ok results =>
            by_cases hctx :
              buildContext results
                (extract_filter_keys (generate_metadata_filter v o q).1) = ""
            · simp only [hctx]; rfl
            · simp only [hctx, Bool.false_eq_true, if_false]
              by_cases hmid : containsSub (lowerStr v.model_id) ("anthropic.claude-3")
              · simp only [hmid, Bool.not_true, Bool.false_eq_true, if_false]
                cases hg : o.generate with
                | error e => rfl
                | ok body =>
                    cases hp : parse_model_response body with
                    | ok text => simp only [hp]; rfl
                    | error e => simp only [hp]; rfl
              · simp only [hmid, Bool.not_false, if_true]; rfl
  · intro v o messages h
    unfold pipe
    cases hml : messages.getLast? with
    | none => rfl
    | some lastMsg =>
        cases hal : alookup ("content") lastMsg with
        | none =>
            have := h lastMsg hml
            rw [hal] at this
            exact absurd this (by simp)
        | some question =>
            simp only [hal]
            by_cases hak : v.aws_access_key_id = "" || v.aws_secret_access_key = ""
            · simp only [hak, if_true]; rfl
            · simp only [hak, Bool.false_eq_true, if_false]
              by_cases hkb : v.knowledge_base_id = ""
              · simp only [hkb]; rfl
              · simp only [hkb, Bool.false_eq_true, if_false, if_neg]
                cases hq : (query_knowledge_base v o question Option.none
                    (if v.use_conversation_history then
                      format_conversation_history v messages else "")).result with
                | ok s => simp only [hq]; rfl
                | error e => simp only [hq]; rfl

/-- Witness for C1 (amended): a successful-construction oracle with a
failing retrieval still yields a string result, and a well-formed body
yields a terminal `pipe` result even though client construction fails. -/
theorem claim_C1_witness :
    ((query_knowledge_base
      ⟨"AK", "SK", "KB", "anthropic.claude-3-5-sonnet-20240620-v1:0", 5, true, 10,
        false, "[]", true⟩
      ⟨.ok (), fun _ => .error ⟨false, "j"⟩, .error ⟨false, "m"⟩, .error ⟨false, "m"⟩,
        .error ⟨true, "ThrottlingException: slow down"⟩, .error ⟨false, "m"⟩,
        .error ⟨false, "m"⟩⟩
      "q" Option.none "").result).isOk = true ∧
    (pipe
      ⟨"AK", "SK", "KB", "anthropic.claude-3-5-sonnet-20240620-v1:0", 5, true, 10,
        false, "[]", true⟩
      ⟨.error ⟨false, "Failed to initialize AWS clients: boom"⟩,
        fun _ => .error ⟨false, "j"⟩, .error ⟨false, "m"⟩, .error ⟨false, "m"⟩,
        .ok [], .error ⟨false, "m"⟩, .error ⟨false, "m"⟩⟩
      [[("role", "user"), ("content", "hello")]]).isOk = true :=
  ⟨claim_C1_amended.1 _ _ _ _ _ (by decide),
   claim_C1_amended.2 _ _ _ (by decide)⟩

/-! ### Datetime range rejection (C8) -/

/-- C8: any input the `from ... to ...` regex rejects, and any matching
input either of whose sides fails the format cascade, yields the
all-`None` result — in particular the empty string, a single timestamp,
and the placeholder string `from X to Y`.  The function is total (the
`except` clause never fires in this embedding because every step is a
total function). -/
theorem claim_C8 :
    (∀ s : String, matchFromTo (pyStripL s.data) = Option.none →
      parse_datetime_range s = Option.none) ∧
    (∀ (s : String) (g1 g2 : List Char),
      matchFromTo (pyStripL s.data) = Option.some (g1, g2) →
      parse_datetime_to_formats (pyStripL g1).asString = Option.none ∨
        parse_datetime_to_formats (pyStripL g2).asString = Option.none →
      parse_datetime_range s = Option.none) ∧
    parse_datetime_range "" = Option.none ∧
    parse_datetime_range ("2025-08-01T00:00:00Z") = Option.none ∧
    parse_datetime_range ("from X to Y") = Option.none := by
  refine ⟨?_, ?_, by decide, by decide, by decide⟩
  · intro s h
    unfold parse_datetime_range
    rw [h]
  · intro s g1 g2 h hsides
    unfold parse_datetime_range
    simp only [h]
    rcases hsides with h1 | h2
    · rw [h1]
    · rw [h2]
      cases parse_datetime_to_formats (pyStripL g1).asString with
      | none => rfl
      | some p => obtain ⟨si, su⟩ := p; rfl

/-- Witness for C8: a non-matching string, and a matching string with
unparseable sides. -/
theorem claim_C8_witness :
    parse_datetime_range ("invalid range format") = Option.none ∧
    parse_datetime_range ("from yesterday to tomorrow") = Option.none := by
  constructor
  · exact claim_C8.1 _ (by decide)
  · exact claim_C8.2.1 _ (("yesterday").data) (("tomorrow").data) (by decide)
      (Or.inl (by decide))

/-! ### Range ordering (C5) -/

/-- The claim of C5 is false as stated: `parse_datetime_range` performs
no ordering check, so a `from ... to ...` string whose sides are in
reverse chronological order parses successfully with
`end_unix < start_unix`. -/
theorem claim_C5_counterexample :
    parse_datetime_range ("from 2025-01-02 to 2025-01-01") =
      Option.some ("2025-01-02T00:00:00Z", 1735776000, "2025-01-01T00:00:00Z", 1735689600) ∧
    ¬((1735689600 : Int) ≥ 1735776000) := by
  exact ⟨by decide, by decide⟩

/-- C5 (amended): the resolver returns the two sides' instants verbatim
(no reordering and no validation), so `end_unix ≥ start_unix` holds
exactly when the `<B>` side's parsed instant is not earlier than the
`<A>` side's — which the extraction prompt requests but nothing
enforces. -/
theorem claim_C5_amended :
    ∀ (s : String) (g1 g2 : List Char) (ta tb : DT),
      matchFromTo (pyStripL s.data) = Option.some (g1, g2) →
      parseCascade (pyStripL g1) = Option.some ta →
      parseCascade (pyStripL g2) = Option.some tb →
      unixOf ta ≤ unixOf tb →
      parse_datetime_range s =
        Option.some (isoString ta, unixOf ta, isoString tb, unixOf tb) ∧
      unixOf tb ≥ unixOf ta := by
  intro s g1 g2 ta tb hm ha hb hord
  refine ⟨?_, hord⟩
  unfold parse_datetime_range
  simp only [hm]
  unfold parse_datetime_to_formats
  simp only [asString_data]
  rw [ha, hb]
  rfl

/-- Witness for C5 (amended) on a correctly ordered month range. -/
theorem claim_C5_witness :
    parse_datetime_range ("from 2025-08-01T00:00:00Z to 2025-08-31T23:59:59Z") =
      Option.some ("2025-08-01T00:00:00Z", 1754006400, "2025-08-31T23:59:59Z", 1756684799) ∧
    (1756684799 : Int) ≥ 1754006400 := by
  have h := claim_C5_amended ("from 2025-08-01T00:00:00Z to 2025-08-31T23:59:59Z")
    (("2025-08-01T00:00:00Z").data) (("2025-08-31T23:59:59Z").data)
    ⟨2025, 8, 1, 0, 0, 0, 0, Option.none⟩ ⟨2025, 8, 31, 23, 59, 59, 0, Option.none⟩
    (by decide) (by decide) (by decide) (by decide)
  exact ⟨h.1.trans (by decide), by decide⟩

/-! ### Datetime normalisation (C4): digit and rendering lemmas -/

theorem digit_facts : ∀ k, k < 10 →
    isDigitC (digitChar10 k) = true ∧ dval (digitChar10 k) = k ∧
    ((digitChar10 k = '0') ↔ k = 0) ∧ ((digitChar10 k = '1') ↔ k = 1) ∧
    ((digitChar10 k = '2') ↔ k = 2) ∧ ((digitChar10 k = '3') ↔ k = 3) := by decide

theorem digitChar10_mod (n : Nat) : digitChar10 n = digitChar10 (n % 10) := by
  unfold digitChar10
  rw [Nat.mod_mod_of_dvd n (dvd_refl 10)]

theorem isDigitC_digitChar10 (n : Nat) : isDigitC (digitChar10 n) = true := by
  rw [digitChar10_mod]
  exact (digit_facts _ (Nat.mod_lt _ (by omega))).1

theorem dval_digitChar10 (n : Nat) : dval (digitChar10 n) = n % 10 := by
  rw [digitChar10_mod]
  exact (digit_facts _ (Nat.mod_lt _ (by omega))).2.1

theorem digitChar10_eq_zero (n : Nat) : (digitChar10 n = '0') ↔ n % 10 = 0 := by
  rw [digitChar10_mod]
  exact (digit_facts _ (Nat.mod_lt _ (by omega))).2.2.1

theorem digitChar10_eq_one (n : Nat) : (digitChar10 n = '1') ↔ n % 10 = 1 := by
  rw [digitChar10_mod]
  exact (digit_facts _ (Nat.mod_lt _ (by omega))).2.2.2.1

theorem digitChar10_eq_two (n : Nat) : (digitChar10 n = '2') ↔ n % 10 = 2 := by
  rw [digitChar10_mod]
  exact (digit_facts _ (Nat.mod_lt _ (by omega))).2.2.2.2.1

theorem digitChar10_eq_three (n : Nat) : (digitChar10 n = '3') ↔ n % 10 = 3 := by
  rw [digitChar10_mod]
  exact (digit_facts _ (Nat.mod_lt _ (by omega))).2.2.2.2.2

theorem dval_lit :
    dval '0' = 0 ∧ dval '1' = 1 ∧ dval '2' = 2 ∧ dval '3' = 3 := by decide

theorem parseY4_pad4 (y : Nat) (hy : y ≤ 9999) (rest : List Char) :
    parseY4 (pad4 y ++ rest) = Option.some (y, rest) := by
  show parseY4 (digitChar10 (y / 1000) :: digitChar10 (y / 100) :: digitChar10 (y / 10) ::
    digitChar10 y :: rest) = _
  unfold parseY4
  simp only [isDigitC_digitChar10, Bool.and_self, if_true, dval_digitChar10]
  congr 2
  omega

theorem parseMonthNum_pad2 (m : Nat) (h1 : 1 ≤ m) (h2 : m ≤ 12) (rest : List Char) :
    parseMonthNum (pad2 m ++ rest) = Option.some (m, rest) := by
  show parseMonthNum (digitChar10 (m / 10) :: digitChar10 m :: rest) = _
  unfold parseMonthNum
  rcases Nat.lt_or_ge m 10 with hm | hm
  · have e0 : digitChar10 (m / 10) = '0' := by
      rw [digitChar10_eq_zero]; omega
    have e1 : ¬(digitChar10 (m / 10) = '1') := by
      rw [digitChar10_eq_one]; omega
    simp only [e0, e1, isDigitC_digitChar10, dval_digitChar10]
    have hmm : m % 10 = m := Nat.mod_eq_of_lt hm
    simp [hmm, h1]
  · have e1 : digitChar10 (m / 10) = '1' := by
      rw [digitChar10_eq_one]; omega
    simp only [e1, isDigitC_digitChar10, dval_digitChar10]
    have : m % 10 ≤ 2 := by omega
    simp [this]
    try omega

theorem parseDayNum_pad2 (d : Nat) (h1 : 1 ≤ d) (h2 : d ≤ 31) (rest : List Char) :
    parseDayNum (pad2 d ++ rest) = Option.some (d, rest) := by
  show parseDayNum (digitChar10 (d / 10) :: digitChar10 d :: rest) = _
  unfold parseDayNum
  rcases Nat.lt_or_ge d 10 with hd | hd
  · have e0 : digitChar10 (d / 10) = '0' := by rw [digitChar10_eq_zero]; omega
    have e1 : ¬(digitChar10 (d / 10) = '1') := by rw [digitChar10_eq_one]; omega
    have e2 : ¬(digitChar10 (d / 10) = '2') := by rw [digitChar10_eq_two]; omega
    have e3 : ¬(digitChar10 (d / 10) = '3') := by rw [digitChar10_eq_three]; omega
    simp only [e0, e1, e2, e3, isDigitC_digitChar10, dval_digitChar10]
    have hdd : d % 10 = d := Nat.mod_eq_of_lt hd
    simp [hdd, h1]
  · rcases Nat.lt_or_ge d 30 with hd3 | hd3
    · have e3 : ¬(digitChar10 (d / 10) = '3') := by rw [digitChar10_eq_three]; omega
      rcases Nat.lt_or_ge d 20 with h20 | h20
      · have e1 : digitChar10 (d / 10) = '1' := by rw [digitChar10_eq_one]; omega
        simp only [e1, e3, isDigitC_digitChar10, dval_digitChar10]
        simp [dval_lit.2.1]
        omega
      · have e2 : digitChar10 (d / 10) = '2' := by rw [digitChar10_eq_two]; omega
        simp only [e2, e3, isDigitC_digitChar10, dval_digitChar10]
        simp [dval_lit.2.2.1]
        omega
    · have e3 : digitChar10 (d / 10) = '3' := by rw [digitChar10_eq_three]; omega
      rcases Nat.lt_or_ge d 31 with h31 | h31
      · have e0 : digitChar10 d = '0' := by rw [digitChar10_eq_zero]; omega
        simp only [e3, e0, isDigitC_digitChar10]
        simp [dval_lit.1]
        omega
      · have e1 : digitChar10 d = '1' := by rw [digitChar10_eq_one]; omega
        simp only [e3, e1, isDigitC_digitChar10]
        simp [dval_lit.2.1]
        omega

theorem parseHourNum_pad2 (h : Nat) (h2 : h ≤ 23) (rest : List Char) :
    parseHourNum (pad2 h ++ rest) = Option.some (h, rest) := by
  show parseHourNum (digitChar10 (h / 10) :: digitChar10 h :: rest) = _
  unfold parseHourNum
  rcases Nat.lt_or_ge h 20 with hh | hh
  · have e2 : ¬(digitChar10 (h / 10) = '2') := by rw [digitChar10_eq_two]; omega
    rcases Nat.lt_or_ge h 10 with h10 | h10
    · have e0 : digitChar10 (h / 10) = '0' := by rw [digitChar10_eq_zero]; omega
      simp only [e0, e2, isDigitC_digitChar10, dval_digitChar10]
      simp [dval_lit.1]
      omega
    · have e1 : digitChar10 (h / 10) = '1' := by rw [digitChar10_eq_one]; omega
      simp only [e1, e2, isDigitC_digitChar10, dval_digitChar10]
      simp [dval_lit.2.1]
      omega
  · have e2 : digitChar10 (h / 10) = '2' := by rw [digitChar10_eq_two]; omega
    simp only [e2, isDigitC_digitChar10, dval_digitChar10]
    have : h % 10 ≤ 3 := by omega
    simp [this]
    try omega

theorem parseMSNum_pad2 (x : Nat) (h2 : x ≤ 59) (rest : List Char) :
    parseMSNum (pad2 x ++ rest) = Option.some (x, rest) := by
  show parseMSNum (digitChar10 (x / 10) :: digitChar10 x :: rest) = _
  unfold parseMSNum
  have hle : (x / 10) % 10 ≤ 5 := by omega
  simp only [isDigitC_digitChar10, dval_digitChar10, hle]
  simp
  omega

theorem natDecCharsAux_step (fuel n : Nat) :
    natDecCharsAux (fuel + 1) n =
      if n < 10 then [digitChar10 n] else natDecCharsAux fuel (n / 10) ++ [digitChar10 n] :=
  rfl

theorem natDecChars_year (y : Nat) (h1 : 1000 ≤ y) (h2 : y ≤ 9999) :
    natDecChars y = pad4 y := by
  unfold natDecChars
  rw [show y + 1 = (y - 3) + 1 + 1 + 1 + 1 by omega]
  rw [natDecCharsAux_step, if_neg (by omega)]
  rw [natDecCharsAux_step, if_neg (by omega)]
  rw [natDecCharsAux_step, if_neg (by omega)]
  rw [natDecCharsAux_step, if_pos (by omega)]
  simp only [Nat.div_div_eq_div_mul]
  norm_num [pad4]

/-- `int()` truncation toward zero of `E + m/10^6` for `0 ≤ m < 10^6`:
the floor `E` except one above it for negative non-integral values. -/
theorem tdiv_micro (E : Int) (m : Nat) (hm : m < 1000000) :
    Int.tdiv (E * 1000000 + (m : Int)) 1000000 =
      E + (if 0 ≤ E ∨ m = 0 then 0 else 1) := by
  by_cases hE : 0 ≤ E
  · rw [if_pos (Or.inl hE), add_zero]
    rw [Int.tdiv_eq_ediv (by positivity) (by norm_num)]
    rw [show E * 1000000 + (m : Int) = (m : Int) + 1000000 * E by ring]
    rw [Int.add_mul_ediv_left _ _ (by norm_num)]
    rw [Int.ediv_eq_zero_of_lt (by positivity) (by exact_mod_cast hm)]
    ring
  · by_cases hm0 : m = 0
    · subst hm0
      rw [if_pos (Or.inr rfl), add_zero]
      push_cast
      rw [add_zero]
      exact Int.mul_tdiv_cancel E (by norm_num)
    · rw [if_neg (by tauto)]
      have hneg : E ≤ -1 := by omega
      have hv : E * 1000000 + (m : Int) =
          -((-E - 1) * 1000000 + (1000000 - (m : Int))) := by ring
      rw [hv, Int.neg_tdiv]
      have hmi : (1 : Int) ≤ (m : Int) := by exact_mod_cast Nat.one_le_iff_ne_zero.mpr hm0
      have hmi2 : (m : Int) < 1000000 := by exact_mod_cast hm
      have h1 : Int.tdiv ((-E - 1) * 1000000 + (1000000 - (m : Int))) 1000000 = -E - 1 := by
        rw [Int.tdiv_eq_ediv (by nlinarith) (by norm_num)]
        rw [show (-E - 1) * 1000000 + (1000000 - (m : Int)) =
          (1000000 - (m : Int)) + 1000000 * (-E - 1) by ring]
        rw [Int.add_mul_ediv_left _ _ (by norm_num)]
        rw [Int.ediv_eq_zero_of_lt (by omega) (by omega)]
        ring
      rw [h1]
      ring

/-! Bounds established by the component parsers. -/

theorem isDigitC_dval_le (c : Char) (h : isDigitC c = true) : dval c ≤ 9 := by
  unfold isDigitC at h
  simp only [Bool.and_eq_true, decide_eq_true_eq] at h
  unfold dval
  omega

theorem parseY4_bounds : ∀ (cs : List Char) (y : Nat) (r : List Char),
    parseY4 cs = Option.some (y, r) → y ≤ 9999 := by
  intro cs y r h
  match cs with
  | [] => simp [parseY4] at h
  | [c1] => simp [parseY4] at h
  | [c1, c2] => simp [parseY4] at h
  | [c1, c2, c3] => simp [parseY4] at h
  | c1 :: c2 :: c3 :: c4 :: rest =>
    simp only [parseY4] at h
    split_ifs at h with hc
    · simp only [Bool.and_eq_true] at hc
      have h1 := isDigitC_dval_le c1 hc.1.1.1
      have h2 := isDigitC_dval_le c2 hc.1.1.2
      have h3 := isDigitC_dval_le c3 hc.1.2
      have h4 := isDigitC_dval_le c4 hc.2
      simp only [Option.some.injEq, Prod.mk.injEq] at h
      obtain ⟨hy, -⟩ := h
      omega

theorem parseMonthNum_bounds : ∀ (cs : List Char) (m : Nat) (r : List Char),
    parseMonthNum cs = Option.some (m, r) → 1 ≤ m ∧ m ≤ 12 := by
  intro cs m r h
  match cs with
  | [] => simp [parseMonthNum] at h
  | [c1] =>
    simp only [parseMonthNum] at h
    split_ifs at h with hc
    · simp only [Bool.and_eq_true, decide_eq_true_eq] at hc
      have h9 := isDigitC_dval_le c1 hc.1
      simp only [Option.some.injEq, Prod.mk.injEq] at h
      obtain ⟨hm, -⟩ := h
      omega
  | c1 :: c2 :: rest =>
    simp only [parseMonthNum] at h
    split_ifs at h with hc1 hc2 hc3
    · simp only [Bool.and_eq_true, decide_eq_true_eq] at hc1
      simp only [Option.some.injEq, Prod.mk.injEq] at h
      obtain ⟨hm, -⟩ := h
      omega
    · simp only [Bool.and_eq_true, decide_eq_true_eq] at hc2
      have h9 := isDigitC_dval_le c2 hc2.1.2
      simp only [Option.some.injEq, Prod.mk.injEq] at h
      obtain ⟨hm, -⟩ := h
      omega
    · simp only [Bool.and_eq_true, decide_eq_true_eq] at hc3
      have h9 := isDigitC_dval_le c1 hc3.1
      simp only [Option.some.injEq, Prod.mk.injEq] at h
      obtain ⟨hm, -⟩ := h
      omega

theorem parseDayNum_bounds : ∀ (cs : List Char) (d : Nat) (r : List Char),
    parseDayNum cs = Option.some (d, r) → 1 ≤ d ∧ d ≤ 31 := by
  intro cs d r h
  match cs with
  | [] => simp [parseDayNum] at h
  | [c1] =>
    simp only [parseDayNum] at h
    split_ifs at h with hc
    · simp only [Bool.and_eq_true, decide_eq_true_eq] at hc
      have h9 := isDigitC_dval_le c1 hc.1
      simp only [Option.some.injEq, Prod.mk.injEq] at h
      obtain ⟨hm, -⟩ := h
      omega
  | c1 :: c2 :: rest =>
    simp only [parseDayNum] at h
    split_ifs at h with hc1 hc2 hc3 hc4
    · simp only [Bool.and_eq_true, Bool.or_eq_true, decide_eq_true_eq] at hc1
      have h9 : dval c2 ≤ 1 := by
        rcases hc1.2 with h | h <;> subst h <;> decide
      simp only [Option.some.injEq, Prod.mk.injEq] at h
      obtain ⟨hm, -⟩ := h
      omega
    · simp only [Bool.and_eq_true, Bool.or_eq_true, decide_eq_true_eq] at hc2
      have h9 := isDigitC_dval_le c2 hc2.2
      have h1 : dval c1 = 1 ∨ dval c1 = 2 := by
        rcases hc2.1 with h | h <;> subst h <;> [exact Or.inl rfl; exact Or.inr rfl]
      simp only [Option.some.injEq, Prod.mk.injEq] at h
      obtain ⟨hm, -⟩ := h
      omega
    · simp only [Bool.and_eq_true, decide_eq_true_eq] at hc3
      have h9 := isDigitC_dval_le c2 hc3.1.2
      simp only [Option.some.injEq, Prod.mk.injEq] at h
      obtain ⟨hm, -⟩ := h
      omega
    · simp only [Bool.and_eq_true, decide_eq_true_eq] at hc4
      have h9 := isDigitC_dval_le c1 hc4.1
      simp only [Option.some.injEq, Prod.mk.injEq] at h
      obtain ⟨hm, -⟩ := h
      omega

theorem parseHourNum_bounds : ∀ (cs : List Char) (x : Nat) (r : List Char),
    parseHourNum cs = Option.some (x, r) → x ≤ 23 := by
  intro cs x r h
  match cs with
  | [] => simp [parseHourNum] at h
  | [c1] =>
    simp only [parseHourNum] at h
    split_ifs at h with hc
    · have h9 := isDigitC_dval_le c1 hc
      simp only [Option.some.injEq, Prod.mk.injEq] at h
      obtain ⟨hm, -⟩ := h
      omega
  | c1 :: c2 :: rest =>
    simp only [parseHourNum] at h
    split_ifs at h with hc1 hc2 hc3
    · simp only [Bool.and_eq_true, decide_eq_true_eq] at hc1
      simp only [Option.some.injEq, Prod.mk.injEq] at h
      obtain ⟨hm, -⟩ := h
      omega
    · simp only [Bool.and_eq_true, Bool.or_eq_true, decide_eq_true_eq] at hc2
      have h9 := isDigitC_dval_le c2 hc2.2
      have h1 : dval c1 ≤ 1 := by
        rcases hc2.1 with h | h <;> subst h <;> decide
      simp only [Option.some.injEq, Prod.mk.injEq] at h
      obtain ⟨hm, -⟩ := h
      omega
    · have h9 := isDigitC_dval_le c1 hc3
      simp only [Option.some.injEq, Prod.mk.injEq] at h
      obtain ⟨hm, -⟩ := h
      omega

theorem parseMSNum_bounds : ∀ (cs : List Char) (x : Nat) (r : List Char),
    parseMSNum cs = Option.some (x, r) → x ≤ 59 := by
  intro cs x r h
  match cs with
  | [] => simp [parseMSNum] at h
  | [c1] =>
    simp only [parseMSNum] at h
    split_ifs at h with hc
    · have h9 := isDigitC_dval_le c1 hc
      simp only [Option.some.injEq, Prod.mk.injEq] at h
      obtain ⟨hm, -⟩ := h
      omega
  | c1 :: c2 :: rest =>
    simp only [parseMSNum] at h
    split_ifs at h with hc1 hc2
    · simp only [Bool.and_eq_true, decide_eq_true_eq] at hc1
      have h9 := isDigitC_dval_le c2 hc1.2
      simp only [Option.some.injEq, Prod.mk.injEq] at h
      obtain ⟨hm, -⟩ := h
      omega
    · have h9 := isDigitC_dval_le c1 hc2
      simp only [Option.some.injEq, Prod.mk.injEq] at h
      obtain ⟨hm, -⟩ := h
      omega

theorem parseMonthName_bounds :
    ∀ (names : List (String × Nat)), (∀ p ∈ names, 1 ≤ p.2 ∧ p.2 ≤ 12) →
      ∀ (cs : List Char) (m : Nat) (r : List Char),
        parseMonthName names cs = Option.some (m, r) → 1 ≤ m ∧ m ≤ 12 := by
  intro names
  induction names with
  | nil => intro _ cs m r h; simp [parseMonthName] at h
  | cons p rest ih =>
      intro hb cs m r h
      obtain ⟨nm, v⟩ := p
      simp only [parseMonthName] at h
      cases hp : ciPrefixM nm.data cs with
      | some r' =>
          rw [hp] at h
          simp only [Option.some.injEq, Prod.mk.injEq] at h
          obtain ⟨hv, -⟩ := h
          exact hv ▸ hb (nm, v) (by simp)
      | none =>
          rw [hp] at h
          exact ih (fun q hq => hb q (by simp [hq])) cs m r h

theorem takeDigits_facts : ∀ (n : Nat) (cs : List Char),
    (∀ c ∈ (takeDigits n cs).1, isDigitC c = true) ∧ (takeDigits n cs).1.length ≤ n := by
  intro n
  induction n with
  | zero => intro cs; simp [takeDigits]
  | succ k ih =>
      intro cs
      cases cs with
      | nil => simp [takeDigits]
      | cons c rest =>
          unfold takeDigits
          by_cases hc : isDigitC c
          · simp only [hc, if_true]
            constructor
            · intro x hx
              rcases List.mem_cons.mp hx with rfl | hx
              · exact hc
              · exact (ih rest).1 x hx
            · simpa using (ih rest).2
          · simp [hc]

theorem digitsValAux_lt : ∀ (ds : List Char) (a : Nat),
    (∀ c ∈ ds, isDigitC c = true) →
    List.foldl (fun x c => x * 10 + dval c) a ds < (a + 1) * 10 ^ ds.length := by
  intro ds
  induction ds with
  | nil => intro a _; simp
  | cons c rest ih =>
      intro a hd
      have hc : dval c ≤ 9 := isDigitC_dval_le c (hd c (by simp))
      have h1 := ih (a * 10 + dval c) (fun x hx => hd x (by simp [hx]))
      calc List.foldl (fun x c => x * 10 + dval c) (a * 10 + dval c) rest
          < (a * 10 + dval c + 1) * 10 ^ rest.length := h1
        _ ≤ (a + 1) * 10 ^ (c :: rest).length := by
            simp only [List.length_cons, pow_succ]
            nlinarith [pow_pos (by norm_num : (0:ℕ) < 10) rest.length]

theorem parseFrac_lt : ∀ (cs : List Char) (f : Nat) (r : List Char),
    parseFrac cs = Option.some (f, r) → f < 1000000 := by
  intro cs f r h
  simp only [parseFrac] at h
  split_ifs at h with he
  · simp only [Option.some.injEq, Prod.mk.injEq] at h
    obtain ⟨hf, -⟩ := h
    subst hf
    set ds := (takeDigits 6 cs).1 with hds
    have h1 : digitsVal ds < 10 ^ ds.length := by
      simpa [digitsVal] using digitsValAux_lt ds 0 (takeDigits_facts 6 cs).1
    have h2 : ds.length ≤ 6 := (takeDigits_facts 6 cs).2
    have h3 : digitsVal ds * 10 ^ (6 - ds.length) < 10 ^ ds.length * 10 ^ (6 - ds.length) :=
      Nat.mul_lt_mul_of_lt_of_le h1 (le_refl _) (pow_pos (by norm_num) _)
    rw [← pow_add] at h3
    have h4 : ds.length + (6 - ds.length) = 6 := by omega
    rw [h4] at h3
    omega

theorem mkDT_ok (y m d hh mi ss micro : Nat) (off : Option Int) (t : DT)
    (h : mkDT y m d hh mi ss micro off = Option.some t) :
    t = ⟨y, m, d, hh, mi, ss, micro, off⟩ ∧ 1 ≤ y ∧ d ≤ daysInMonth y m := by
  simp only [mkDT] at h
  split_ifs at h with hv
  · unfold validYMD at hv
    simp only [Bool.and_eq_true, decide_eq_true_eq] at hv
    simp only [Option.some.injEq] at h
    exact ⟨h.symm, hv.1, hv.2⟩

theorem parseFmt1_ok (cs : List Char) (t : DT) (h : parseFmt1 cs = Option.some t) :
    DTok t := by
  simp only [parseFmt1, Option.bind_eq_bind, Option.bind_eq_some] at h
  obtain ⟨⟨y, r1⟩, hy, h⟩ := h
  obtain ⟨r2, hl1, h⟩ := h
  obtain ⟨⟨m, r3⟩, hm, h⟩ := h
  obtain ⟨r4, hl2, h⟩ := h
  obtain ⟨⟨d, r5⟩, hd, h⟩ := h
  obtain ⟨r6, hl3, h⟩ := h
  obtain ⟨⟨hh, r7⟩, hhh, h⟩ := h
  obtain ⟨r8, hl4, h⟩ := h
  obtain ⟨⟨mi, r9⟩, hmi, h⟩ := h
  obtain ⟨r10, hl5, h⟩ := h
  obtain ⟨⟨ss, r11⟩, hss, h⟩ := h
  obtain ⟨r12, hl6, h⟩ := h
  split_ifs at h with he
  obtain ⟨rfl, hy1, hdm⟩ := mkDT_ok _ _ _ _ _ _ _ _ _ h
  have hy2 := parseY4_bounds _ _ _ hy
  have hm2 := parseMonthNum_bounds _ _ _ hm
  have hd2 := parseDayNum_bounds _ _ _ hd
  have hh2 := parseHourNum_bounds _ _ _ hhh
  have hmi2 := parseMSNum_bounds _ _ _ hmi
  have hss2 := parseMSNum_bounds _ _ _ hss
  exact ⟨hy1, hy2, hm2.1, hm2.2, hd2.1, hdm, hh2, hmi2, hss2, by norm_num⟩

theorem parseFmt2_ok (cs : List Char) (t : DT) (h : parseFmt2 cs = Option.some t) :
    DTok t := by
  simp only [parseFmt2, Option.bind_eq_bind, Option.bind_eq_some] at h
  obtain ⟨⟨y, r1⟩, hy, h⟩ := h
  obtain ⟨r2, hl1, h⟩ := h
  obtain ⟨⟨m, r3⟩, hm, h⟩ := h
  obtain ⟨r4, hl2, h⟩ := h
  obtain ⟨⟨d, r5⟩, hd, h⟩ := h
  obtain ⟨r6, hl3, h⟩ := h
  obtain ⟨⟨hh, r7⟩, hhh, h⟩ := h
  obtain ⟨r8, hl4, h⟩ := h
  obtain ⟨⟨mi, r9⟩, hmi, h⟩ := h
  obtain ⟨r10, hl5, h⟩ := h
  obtain ⟨⟨ss, r11⟩, hss, h⟩ := h
  obtain ⟨r12, hl6, h⟩ := h
  obtain ⟨⟨mic, r13⟩, hmic, h⟩ := h
  obtain ⟨r14, hl7, h⟩ := h
  split_ifs at h with he
  obtain ⟨rfl, hy1, hdm⟩ := mkDT_ok _ _ _ _ _ _ _ _ _ h
  have hy2 := parseY4_bounds _ _ _ hy
  have hm2 := parseMonthNum_bounds _ _ _ hm
  have hd2 := parseDayNum_bounds _ _ _ hd
  have hh2 := parseHourNum_bounds _ _ _ hhh
  have hmi2 := parseMSNum_bounds _ _ _ hmi
  have hss2 := parseMSNum_bounds _ _ _ hss
  have hmic2 := parseFrac_lt _ _ _ hmic
  exact ⟨hy1, hy2, hm2.1, hm2.2, hd2.1, hdm, hh2, hmi2, hss2, hmic2⟩

theorem parseFmt3_ok (cs : List Char) (t : DT) (h : parseFmt3 cs = Option.some t) :
    DTok t := by
  simp only [parseFmt3, Option.bind_eq_bind, Option.bind_eq_some] at h
  obtain ⟨⟨y, r1⟩, hy, h⟩ := h
  obtain ⟨r2, hl1, h⟩ := h
  obtain ⟨⟨m, r3⟩, hm, h⟩ := h
  obtain ⟨r4, hl2, h⟩ := h
  obtain ⟨⟨d, r5⟩, hd, h⟩ := h
  obtain ⟨r6, hl3, h⟩ := h
  obtain ⟨⟨hh, r7⟩, hhh, h⟩ := h
  obtain ⟨r8, hl4, h⟩ := h
  obtain ⟨⟨mi, r9⟩, hmi, h⟩ := h
  obtain ⟨r10, hl5, h⟩ := h
  obtain ⟨⟨ss, r11⟩, hss, h⟩ := h
  split_ifs at h with he
  obtain ⟨rfl, hy1, hdm⟩ := mkDT_ok _ _ _ _ _ _ _ _ _ h
  have hy2 := parseY4_bounds _ _ _ hy
  have hm2 := parseMonthNum_bounds _ _ _ hm
  have hd2 := parseDayNum_bounds _ _ _ hd
  have hh2 := parseHourNum_bounds _ _ _ hhh
  have hmi2 := parseMSNum_bounds _ _ _ hmi
  have hss2 := parseMSNum_bounds _ _ _ hss
  exact ⟨hy1, hy2, hm2.1, hm2.2, hd2.1, hdm, hh2, hmi2, hss2, by norm_num⟩

theorem parseFmt4_ok (cs : List Char) (t : DT) (h : parseFmt4 cs = Option.some t) :
    DTok t := by
  simp only [parseFmt4, Option.bind_eq_bind, Option.bind_eq_some] at h
  obtain ⟨⟨y, r1⟩, hy, h⟩ := h
  obtain ⟨r2, hl1, h⟩ := h
  obtain ⟨⟨m, r3⟩, hm, h⟩ := h
  obtain ⟨r4, hl2, h⟩ := h
  obtain ⟨⟨d, r5⟩, hd, h⟩ := h
  split_ifs at h with he
  obtain ⟨rfl, hy1, hdm⟩ := mkDT_ok _ _ _ _ _ _ _ _ _ h
  have hy2 := parseY4_bounds _ _ _ hy
  have hm2 := parseMonthNum_bounds _ _ _ hm
  have hd2 := parseDayNum_bounds _ _ _ hd
  exact ⟨hy1, hy2, hm2.1, hm2.2, hd2.1, hdm, by norm_num, by norm_num, by norm_num,
    by norm_num⟩

theorem parseFmt5_ok (cs : List Char) (t : DT) (h : parseFmt5 cs = Option.some t) :
    DTok t := by
  simp only [parseFmt5, Option.bind_eq_bind, Option.bind_eq_some] at h
  obtain ⟨⟨d, r1⟩, hd, h⟩ := h
  obtain ⟨r2, hl1, h⟩ := h
  obtain ⟨⟨m, r3⟩, hm, h⟩ := h
  obtain ⟨r4, hl2, h⟩ := h
  obtain ⟨⟨y, r5⟩, hy, h⟩ := h
  split_ifs at h with he
  obtain ⟨rfl, hy1, hdm⟩ := mkDT_ok _ _ _ _ _ _ _ _ _ h
  have hy2 := parseY4_bounds _ _ _ hy
  have hm2 := parseMonthNum_bounds _ _ _ hm
  have hd2 := parseDayNum_bounds _ _ _ hd
  exact ⟨hy1, hy2, hm2.1, hm2.2, hd2.1, hdm, by norm_num, by norm_num, by norm_num,
    by norm_num⟩

theorem parseFmt6_ok (cs : List Char) (t : DT) (h : parseFmt6 cs = Option.some t) :
    DTok t := by
  simp only [parseFmt6, Option.bind_eq_bind, Option.bind_eq_some] at h
  obtain ⟨⟨m, r1⟩, hm, h⟩ := h
  obtain ⟨r2, hl1, h⟩ := h
  obtain ⟨⟨d, r3⟩, hd, h⟩ := h
  obtain ⟨r4, hl2, h⟩ := h
  obtain ⟨⟨y, r5⟩, hy, h⟩ := h
  split_ifs at h with he
  obtain ⟨rfl, hy1, hdm⟩ := mkDT_ok _ _ _ _ _ _ _ _ _ h
  have hy2 := parseY4_bounds _ _ _ hy
  have hm2 := parseMonthNum_bounds _ _ _ hm
  have hd2 := parseDayNum_bounds _ _ _ hd
  exact ⟨hy1, hy2, hm2.1, hm2.2, hd2.1, hdm, by norm_num, by norm_num, by norm_num,
    by norm_num⟩

theorem parseFmt7_ok (cs : List Char) (t : DT) (h : parseFmt7 cs = Option.some t) :
    DTok t := by
  simp only [parseFmt7, Option.bind_eq_bind, Option.bind_eq_some] at h
  obtain ⟨⟨m, r1⟩, hm, h⟩ := h
  obtain ⟨r2, hl1, h⟩ := h
  obtain ⟨⟨d, r3⟩, hd, h⟩ := h
  obtain ⟨r4, hl2, h⟩ := h
  obtain ⟨r5, hl3, h⟩ := h
  obtain ⟨⟨y, r6⟩, hy, h⟩ := h
  split_ifs at h with he
  obtain ⟨rfl, hy1, hdm⟩ := mkDT_ok _ _ _ _ _ _ _ _ _ h
  have hy2 := parseY4_bounds _ _ _ hy
  have hm2 := parseMonthName_bounds monthNamesFull (by decide) _ _ _ hm
  have hd2 := parseDayNum_bounds _ _ _ hd
  exact ⟨hy1, hy2, hm2.1, hm2.2, hd2.1, hdm, by norm_num, by norm_num, by norm_num,
    by norm_num⟩

theorem parseFmt8_ok (cs : List Char) (t : DT) (h : parseFmt8 cs = Option.some t) :
    DTok t := by
  simp only [parseFmt8, Option.bind_eq_bind, Option.bind_eq_some] at h
  obtain ⟨⟨m, r1⟩, hm, h⟩ := h
  obtain ⟨r2, hl1, h⟩ := h
  obtain ⟨⟨d, r3⟩, hd, h⟩ := h
  obtain ⟨r4, hl2, h⟩ := h
  obtain ⟨r5, hl3, h⟩ := h
  obtain ⟨⟨y, r6⟩, hy, h⟩ := h
  split_ifs at h with he
  obtain ⟨rfl, hy1, hdm⟩ := mkDT_ok _ _ _ _ _ _ _ _ _ h
  have hy2 := parseY4_bounds _ _ _ hy
  have hm2 := parseMonthName_bounds monthNamesAbbr (by decide) _ _ _ hm
  have hd2 := parseDayNum_bounds _ _ _ hd
  exact ⟨hy1, hy2, hm2.1, hm2.2, hd2.1, hdm, by norm_num, by norm_num, by norm_num,
    by norm_num⟩

theorem parseFmt9_ok (cs : List Char) (t : DT) (h : parseFmt9 cs = Option.some t) :
    DTok t := by
  simp only [parseFmt9, Option.bind_eq_bind, Option.bind_eq_some] at h
  obtain ⟨⟨y, r1⟩, hy, h⟩ := h
  obtain ⟨r2, hl1, h⟩ := h
  obtain ⟨⟨m, r3⟩, hm, h⟩ := h
  obtain ⟨r4, hl2, h⟩ := h
  obtain ⟨⟨d, r5⟩, hd, h⟩ := h
  obtain ⟨r6, hl3, h⟩ := h
  obtain ⟨⟨hh, r7⟩, hhh, h⟩ := h
  obtain ⟨r8, hl4, h⟩ := h
  obtain ⟨⟨mi, r9⟩, hmi, h⟩ := h
  obtain ⟨r10, hl5, h⟩ := h
  obtain ⟨⟨ss, r11⟩, hss, h⟩ := h
  obtain ⟨⟨off, r12⟩, hoff, h⟩ := h
  split_ifs at h with he
  obtain ⟨rfl, hy1, hdm⟩ := mkDT_ok _ _ _ _ _ _ _ _ _ h
  have hy2 := parseY4_bounds _ _ _ hy
  have hm2 := parseMonthNum_bounds _ _ _ hm
  have hd2 := parseDayNum_bounds _ _ _ hd
  have hh2 := parseHourNum_bounds _ _ _ hhh
  have hmi2 := parseMSNum_bounds _ _ _ hmi
  have hss2 := parseMSNum_bounds _ _ _ hss
  exact ⟨hy1, hy2, hm2.1, hm2.2, hd2.1, hdm, hh2, hmi2, hss2, by norm_num⟩

/-- Every cascade result has in-range fields. -/
theorem parseCascade_ok (cs : List Char) (t : DT)
    (h : parseCascade cs = Option.some t) : DTok t := by
  unfold parseCascade at h
  cases h1 : parseFmt1 cs with
  | some x =>
      rw [h1] at h
      simp only [Option.orElse, Option.some.injEq] at h
      exact h ▸ parseFmt1_ok cs x h1
  | none =>
  rw [h1] at h
  simp only [Option.orElse] at h
  cases h2 : parseFmt2 cs with
  | some x =>
      rw [h2] at h
      simp only [Option.orElse, Option.some.injEq] at h
      exact h ▸ parseFmt2_ok cs x h2
  | none =>
  rw [h2] at h
  simp only [Option.orElse] at h
  cases h3 : parseFmt3 cs with
  | some x =>
      rw [h3] at h
      simp only [Option.orElse, Option.some.injEq] at h
      exact h ▸ parseFmt3_ok cs x h3
  | none =>
  rw [h3] at h
  simp only [Option.orElse] at h
  cases h4 : parseFmt4 cs with
  | some x =>
      rw [h4] at h
      simp only [Option.orElse, Option.some.injEq] at h
      exact h ▸ parseFmt4_ok cs x h4
  | none =>
  rw [h4] at h
  simp only [Option.orElse] at h
  cases h5 : parseFmt5 cs with
  | some x =>
      rw [h5] at h
      simp only [Option.orElse, Option.some.injEq] at h
      exact h ▸ parseFmt5_ok cs x h5
  | none =>
  rw [h5] at h
  simp only [Option.orElse] at h
  cases h6 : parseFmt6 cs with
  | some x =>
      rw [h6] at h
      simp only [Option.orElse, Option.some.injEq] at h
      exact h ▸ parseFmt6_ok cs x h6
  | none =>
  rw [h6] at h
  simp only [Option.orElse] at h
  cases h7 : parseFmt7 cs with
  | some x =>
      rw [h7] at h
      simp only [Option.orElse, Option.some.injEq] at h
      exact h ▸ parseFmt7_ok cs x h7
  | none =>
  rw [h7] at h
  simp only [Option.orElse] at h
  cases h8 : parseFmt8 cs with
  | some x =>
      rw [h8] at h
      simp only [Option.orElse, Option.some.injEq] at h
      exact h ▸ parseFmt8_ok cs x h8
  | none =>
  rw [h8] at h
  simp only [Option.orElse] at h
  exact parseFmt9_ok cs t h

theorem daysInMonth_le (y m : Nat) : daysInMonth y m ≤ 31 := by
  unfold daysInMonth
  split_ifs <;> norm_num

theorem litc_cons (a : Char) (r : List Char) : litc a (a :: r) = Option.some r := by
  simp [litc]

theorem litCI_cons (a : Char) (r : List Char) : litCI a (a :: r) = Option.some r := by
  simp [litCI]

/-- Reading the rendered ISO string back with the strict ISO format
recovers the clock fields (as a naive datetime). -/
theorem parseFmt1_isoString (t : DT) (hok : DTok t) (hy : 1000 ≤ t.y) :
    parseFmt1 (isoString t).data =
      Option.some ⟨t.y, t.m, t.d, t.hh, t.mi, t.ss, 0, Option.none⟩ := by
  obtain ⟨h1, h2, h3, h4, h5, h6, h7, h8, h9, h10⟩ := hok
  have hd31 : t.d ≤ 31 := le_trans h6 (daysInMonth_le _ _)
  show parseFmt1 (natDecChars t.y ++ '-' :: pad2 t.m ++ '-' :: pad2 t.d ++ 'T' ::
    pad2 t.hh ++ ':' :: pad2 t.mi ++ ':' :: pad2 t.ss ++ ['Z']) = _
  rw [natDecChars_year t.y hy h2]
  simp only [List.append_assoc, List.cons_append]
  simp only [parseFmt1, Option.bind_eq_bind, parseY4_pad4 t.y h2, Option.some_bind,
    litc_cons, litCI_cons, parseMonthNum_pad2 t.m h3 h4, parseDayNum_pad2 t.d h5 hd31,
    parseHourNum_pad2 t.hh h7, parseMSNum_pad2 t.mi h8, parseMSNum_pad2 t.ss h9]
  simp [mkDT, validYMD, h1, h6]

theorem isoInstant_isoString (t : DT) (hok : DTok t) (hy : 1000 ≤ t.y) :
    isoInstant (isoString t) = Option.some (fieldsEpochSecs t) := by
  unfold isoInstant
  rw [parseFmt1_isoString t hok hy]
  rfl

theorem isoShaped_isoString (t : DT) (hok : DTok t) (hy : 1000 ≤ t.y) :
    isoShaped (isoString t) = true := by
  obtain ⟨h1, h2, h3, h4, h5, h6, h7, h8, h9, h10⟩ := hok
  unfold isoShaped isoString
  rw [asString_data, natDecChars_year t.y hy h2]
  simp only [pad4, pad2, List.append_assoc, List.cons_append, List.nil_append]
  simp [isDigitC_digitChar10]

theorem unixOf_naive (t : DT) (hmic : t.micro < 1000000) (hoff : t.off = Option.none) :
    unixOf t = fieldsEpochSecs t +
      (if 0 ≤ fieldsEpochSecs t ∨ t.micro = 0 then 0 else 1) := by
  unfold unixOf timestampMicro
  rw [hoff]
  simp only [Option.getD, sub_zero]
  exact tdiv_micro _ _ hmic

/-- Successful evaluation of `parse_datetime_range` in terms of the two
sides' cascade results. -/
theorem parse_range_eval (s : String) (g1 g2 : List Char) (ta tb : DT)
    (hm : matchFromTo (pyStripL s.data) = Option.some (g1, g2))
    (ha : parseCascade (pyStripL g1) = Option.some ta)
    (hb : parseCascade (pyStripL g2) = Option.some tb) :
    parse_datetime_range s =
      Option.some (isoString ta, unixOf ta, isoString tb, unixOf tb) := by
  unfold parse_datetime_range
  simp only [hm]
  unfold parse_datetime_to_formats
  simp only [asString_data]
  rw [ha, hb]
  rfl

/-- C4 (amended): for every `from <A> to <B>` string whose sides both
parse under the format cascade, `parse_datetime_range` returns the two
sides' rendered ISO strings and truncated Unix values; the ISO strings
have the `YYYY-MM-DDTHH:MM:SSZ` shape and denote the rendered clock
fields' UTC instant whenever the year is at least 1000 (below that,
glibc's `%Y` does not zero-pad); and for a side whose matched format
carries *no* explicit UTC offset, the Unix value equals that denoted
instant except that a pre-1970 instant with a fractional `%f` part is
truncated toward zero, one second above the instant of the ISO string.
For an offset-carrying side the ISO string records the local clock
fields while the Unix value subtracts the offset, so the two denote
different instants whenever the offset is nonzero (see the
counterexample). -/
theorem claim_C4_amended :
    ∀ (s : String) (g1 g2 : List Char) (ta tb : DT),
      matchFromTo (pyStripL s.data) = Option.some (g1, g2) →
      parseCascade (pyStripL g1) = Option.some ta →
      parseCascade (pyStripL g2) = Option.some tb →
      parse_datetime_range s =
        Option.some (isoString ta, unixOf ta, isoString tb, unixOf tb) ∧
      (1000 ≤ ta.y → isoShaped (isoString ta) = true ∧
        isoInstant (isoString ta) = Option.some (fieldsEpochSecs ta)) ∧
      (1000 ≤ tb.y → isoShaped (isoString tb) = true ∧
        isoInstant (isoString tb) = Option.some (fieldsEpochSecs tb)) ∧
      (ta.off = Option.none → unixOf ta = fieldsEpochSecs ta +
        (if 0 ≤ fieldsEpochSecs ta ∨ ta.micro = 0 then 0 else 1)) ∧
      (tb.off = Option.none → unixOf tb = fieldsEpochSecs tb +
        (if 0 ≤ fieldsEpochSecs tb ∨ tb.micro = 0 then 0 else 1)) := by
  intro s g1 g2 ta tb hm ha hb
  have hoka := parseCascade_ok _ _ ha
  have hokb := parseCascade_ok _ _ hb
  refine ⟨parse_range_eval s g1 g2 ta tb hm ha hb, ?_, ?_, ?_, ?_⟩
  · intro hy
    exact ⟨isoShaped_isoString ta hoka hy, isoInstant_isoString ta hoka hy⟩
  · intro hy
    exact ⟨isoShaped_isoString tb hokb hy, isoInstant_isoString tb hokb hy⟩
  · intro hoff
    exact unixOf_naive ta hoka.2.2.2.2.2.2.2.2.2 hoff
  · intro hoff
    exact unixOf_naive tb hokb.2.2.2.2.2.2.2.2.2 hoff

/-- The claim of C4 is false as stated: an explicit-offset side is *not*
converted consistently — `strftime` renders the local clock fields with
a literal `Z` while `timestamp()` subtracts the offset, so the Unix
value denotes a different instant than its ISO string (here two hours
apart); and a pre-1970 fractional side is truncated toward zero, one
second past the instant its ISO string denotes. -/
theorem claim_C4_counterexample :
    parse_datetime_range ("from 2025-08-01T12:00:00+0200 to 2025-08-01T14:00:00+0200") =
      Option.some ("2025-08-01T12:00:00Z", 1754042400, "2025-08-01T14:00:00Z", 1754049600) ∧
    isoInstant ("2025-08-01T12:00:00Z") = Option.some 1754049600 ∧
    (1754042400 : Int) ≠ 1754049600 ∧
    parse_datetime_range ("from 1969-12-31T23:59:59.5Z to 1970-01-01T00:00:00Z") =
      Option.some ("1969-12-31T23:59:59Z", 0, "1970-01-01T00:00:00Z", 0) ∧
    isoInstant ("1969-12-31T23:59:59Z") = Option.some (-1) ∧
    (0 : Int) ≠ -1 := by
  exact ⟨by decide, by decide, by decide, by decide, by decide, by decide⟩

/-- Witness for C4 (amended) on the month range of the extraction
prompt's own example. -/
theorem claim_C4_witness :
    parse_datetime_range ("from 2025-08-01T00:00:00Z to 2025-08-31T23:59:59Z") =
      Option.some ("2025-08-01T00:00:00Z", 1754006400, "2025-08-31T23:59:59Z", 1756684799) ∧
    isoShaped ("2025-08-01T00:00:00Z") = true ∧
    isoInstant ("2025-08-31T23:59:59Z") = Option.some 1756684799 := by
  have h := claim_C4_amended ("from 2025-08-01T00:00:00Z to 2025-08-31T23:59:59Z")
    (("2025-08-01T00:00:00Z").data) (("2025-08-31T23:59:59Z").data)
    ⟨2025, 8, 1, 0, 0, 0, 0, Option.none⟩ ⟨2025, 8, 31, 23, 59, 59, 0, Option.none⟩
    (by decide) (by decide) (by decide)
  refine ⟨h.1.trans (by decide), ?_, ?_⟩
  · have := (h.2.1 (by norm_num)).1
    rwa [show isoString ⟨2025, 8, 1, 0, 0, 0, 0, Option.none⟩ = "2025-08-01T00:00:00Z"
      from by decide] at this
  · have := (h.2.2.1 (by norm_num)).2
    rwa [show isoString ⟨2025, 8, 31, 23, 59, 59, 0, Option.none⟩ = "2025-08-31T23:59:59Z"
      from by decide,
      show fieldsEpochSecs ⟨2025, 8, 31, 23, 59, 59, 0, Option.none⟩ = 1756684799
      from by decide] at this

end BedrockKB
